import Mathlib

/-!
# linkedin-go-api: a shallow embedding of `linkedinapi.go`

The client builds JSON payloads, sends authenticated HTTP requests and reads
an identifier or a JSON document out of the response.  The embedding keeps the
Go names.  What the Go code obtains from its surroundings (the HTTP exchange,
the file system, URL validation) is a field of `World`; what it does to its
surroundings (requests handed to an `http.Client`, lines written to the
process log) is returned as a list of `Effect`s next to the Go return values.

Go return tuples are kept as tuples: `(string, error)` is
`String × Option GoError`, with `none` for a nil error.  Go strings are Lean
strings, so they hold well-formed UTF-8 text; byte slices are lists of bytes.
Each operation makes at most one HTTP exchange, so the transport is a
function from the request to its outcome.
-/

set_option autoImplicit false

namespace linkedinapi

/-! ## Constants (`linkedinapi.go` lines 13-20) -/

def baseURL : String := "https://api.linkedin.com/v2"
def mediaUploadBaseURL : String := "https://api.linkedin.com/mediaUpload"
def ugcPostsEndpoint : String := "/ugcPosts"
def assetsEndpoint : String := "/assets"
def xRestliProtocolVersionHeader : String := "X-Restli-Protocol-Version"
def protocolVersion : String := "2.0.0"

/-- Status codes of `net/http` used by the client. -/
def StatusOK : Int := 200
def StatusCreated : Int := 201
def MethodPost : String := "POST"

/-! ## Go runtime values -/

/-- A Go byte slice. -/
abbrev Bytes := List UInt8

/-- The bytes of a Go string holding the text `s` (Go strings are UTF-8). -/
def utf8 (s : String) : Bytes := s.data.flatMap String.utf8EncodeChar

/-- Go `error` values, by origin.  `new text` is `errors.New(text)`; the other
constructors are errors produced outside the client and carry a description. -/
inductive GoError where
  | new (text : String)
  | transport (detail : String)
  | bodyRead (detail : String)
  | file (detail : String)
  | url (detail : String)
  | malformedJSON (detail : String)
  | jsonType (detail : String)
  deriving DecidableEq, Repr

/-! ## `net/http` headers -/

/-- The bytes `textproto` accepts in a header field name (RFC 7230 token). -/
def validHeaderFieldByte (c : Char) : Bool :=
  c.isAlphanum || ['!', '#', '$', '%', '&', '*', '+', '-', '.', '^', '_', '|', '~'].contains c
    || c.toNat = 39 || c.toNat = 96

/-- The canonicalising loop of `textproto.canonicalMIMEHeaderKey`: the first
letter and every letter after a dash in upper case, the others in lower case.
`upper` says whether the next letter is to be upper case. -/
def canonicalLoop : Bool → List Char → List Char
  | _, [] => []
  | upper, c :: cs =>
    let c1 := if upper && c.isLower then c.toUpper
              else if !upper && c.isUpper then c.toLower else c
    c1 :: canonicalLoop (c1 = '-') cs

/-- `textproto.CanonicalMIMEHeaderKey`: a key holding a byte that is not a
valid header field byte is returned unchanged. -/
def CanonicalMIMEHeaderKey (s : String) : String :=
  if s.data.all validHeaderFieldByte then String.mk (canonicalLoop true s.data) else s

/-- `http.Header`, a `map[string][]string`, as an association list read at
the first entry of a key. -/
abbrev Header := List (String × List String)

/-- Go map indexing `h[key]`. -/
def Header.index (h : Header) (key : String) : Option (List String) :=
  List.lookup key h

/-- `Header.Get`: the first value stored under the canonical form of `key`,
and the empty string when there is none. -/
def Header.Get (h : Header) (key : String) : String :=
  match h.index (CanonicalMIMEHeaderKey key) with
  | some (v :: _) => v
  | _ => ""

/-- `Header.Set`: the entry under the canonical form of `key` becomes the
single value `value`. -/
def Header.Set (h : Header) (key value : String) : Header :=
  (CanonicalMIMEHeaderKey key, [value]) ::
    h.filter (fun kv => kv.1 != CanonicalMIMEHeaderKey key)

/-! ## `net/http` requests, responses and clients -/

/-- The part of `http.Request` the client fills in. -/
structure Request where
  Method : String
  URL : String
  Header : Header
  Body : Bytes
  deriving DecidableEq, Repr

/-- The part of `http.Response` the client reads.  `Body` is what
`io.ReadAll(resp.Body)` returns. -/
structure Response where
  StatusCode : Int
  Header : Header
  Body : Except GoError Bytes

/-- An `http.RoundTripper` as an `http.Client` uses it: what `Do` makes of a
request through it, a response or an error (any redirects included). -/
abbrev RoundTripper := Request → Except GoError Response

/-- The type `http.Client`; a nil `Transport` means `http.DefaultTransport`. -/
structure HttpClient where
  Transport : Option RoundTripper

/-- The surroundings of the client: the process-wide `http.DefaultTransport`,
`os.ReadFile`, and the error `url.Parse` reports for a raw URL, if any. -/
structure World where
  DefaultTransport : RoundTripper
  ReadFile : String → Except GoError Bytes
  urlParseError : String → Option GoError

/-- What a call does to its surroundings, in order: a request handed to the
`Do` method of an `http.Client`, a line printed by `log.Println`. -/
inductive Effect where
  | send (via : HttpClient) (req : Request)
  | log (line : Bytes)

/-- The requests among the effects of a call, in the order they were sent. -/
def sentRequests : List Effect → List Request
  | [] => []
  | .send _ req :: rest => req :: sentRequests rest
  | .log _ :: rest => sentRequests rest

/-- The `http.Client`s the requests of a call were handed to, in order. -/
def sentVia : List Effect → List HttpClient
  | [] => []
  | .send via _ :: rest => via :: sentVia rest
  | .log _ :: rest => sentVia rest

/-- `http.NewRequest` for a valid method: fails exactly when the URL does not
parse, and otherwise gives a request with an empty header. -/
def NewRequest (w : World) (method url : String) (body : Bytes) : Except GoError Request :=
  match w.urlParseError url with
  | some err => .error err
  | none => .ok { Method := method, URL := url, Header := [], Body := body }

/-- `http.Client.Do`: the exchange goes through the client's transport. -/
def HttpClient.Do (w : World) (hc : HttpClient) (req : Request) : Except GoError Response :=
  match hc.Transport with
  | some t => t req
  | none => w.DefaultTransport req

/-! ## JSON values and `json.Marshal` -/

/-- A JSON document. Numbers keep their source text. -/
inductive JSON where
  | null
  | bool (b : Bool)
  | num (raw : String)
  | str (s : String)
  | arr (items : List JSON)
  | obj (members : List (String × JSON))
  deriving Repr

/-- One hexadecimal digit, lower case. -/
def hexDigit (n : Nat) : Char :=
  if n < 10 then Char.ofNat (48 + n) else Char.ofNat (87 + n)

/-- The text `\uXXXX` for a code point below 0x10000. -/
def escapeU (n : Nat) : List Char :=
  ['\\', 'u', hexDigit (n / 4096 % 16), hexDigit (n / 256 % 16),
    hexDigit (n / 16 % 16), hexDigit (n % 16)]

/-- How `encoding/json` writes one character of a string, with HTML escaping
on as in `json.Marshal` (backspace and form feed as Go 1.22 and later write
them). -/
def escapeChar (c : Char) : List Char :=
  if c = '"' then ['\\', '"']
  else if c = '\\' then ['\\', '\\']
  else if c = '\n' then ['\\', 'n']
  else if c = '\r' then ['\\', 'r']
  else if c = '\t' then ['\\', 't']
  else if c.toNat = 8 then ['\\', 'b']
  else if c.toNat = 12 then ['\\', 'f']
  else if c.toNat < 32 then escapeU c.toNat
  else if c = '<' ∨ c = '>' ∨ c = '&' then escapeU c.toNat
  else if c.toNat = 0x2028 ∨ c.toNat = 0x2029 then escapeU c.toNat
  else [c]

/-- A JSON string literal for the text `s`. -/
def quote (s : String) : String :=
  String.mk ('"' :: (s.data.flatMap escapeChar ++ ['"']))

mutual
/-- The compact text of a JSON document, as `json.Marshal` writes it. -/
def render : JSON → String
  | .null => "null"
  | .bool true => "true"
  | .bool false => "false"
  | .num raw => raw
  | .str s => quote s
  | .arr items => "[" ++ renderItems items ++ "]"
  | .obj members => "\x7b" ++ renderMembers members ++ "\x7d"
/-- Array elements separated by commas. -/
def renderItems : List JSON → String
  | [] => ""
  | [x] => render x
  | x :: y :: rest => render x ++ "," ++ renderItems (y :: rest)
/-- Object members `"key":value` separated by commas. -/
def renderMembers : List (String × JSON) → String
  | [] => ""
  | [(k, v)] => quote k ++ ":" ++ render v
  | (k, v) :: m :: rest => quote k ++ ":" ++ render v ++ "," ++ renderMembers (m :: rest)
end

/-- The member of a JSON object stored under `key`, if the document is an
object and has one. -/
def JSON.member (j : JSON) (key : String) : Option JSON :=
  match j with
  | .obj members => List.lookup key members
  | _ => none

/-- The value found in a JSON document by descending through the members
named in `path`. -/
def JSON.path (j : JSON) (path : List String) : Option JSON :=
  path.foldl (fun o key => o.bind (fun v => v.member key)) (some j)

/-- A Go type with its `encoding/json` encoding. -/
class ToJSON (α : Type) where
  toJSON : α → JSON

/-- `json.Marshal`: the bytes of the compact JSON text.  It cannot fail on the
payload types of this package (structs of strings, slices and structs). -/
def Marshal {α : Type} [ToJSON α] (v : α) : Bytes := utf8 (render (ToJSON.toJSON v))

/-! ## Payload types (`linkedinapi.go` lines 22-110) -/

structure ShareCommentary where
  Text : String
  deriving DecidableEq, Repr

structure ShareDescription where
  Text : String
  deriving DecidableEq, Repr

structure ShareTitle where
  Text : String
  deriving DecidableEq, Repr

structure ShareMedia where
  Status : String
  Description : ShareDescription
  Media : String
  OriginalURL : String
  Title : ShareTitle
  deriving DecidableEq, Repr

/-- The `Media` slice carries `omitempty`, under which a nil and an empty
slice are encoded alike; both are the empty list. -/
structure ShareContent where
  ShareCommentary : ShareCommentary
  ShareMediaCategory : String
  Media : List ShareMedia
  deriving DecidableEq, Repr

structure SpecificContent where
  ShareContent : ShareContent
  deriving DecidableEq, Repr

structure Visibility where
  MemberNetworkVisibility : String
  deriving DecidableEq, Repr

structure ShareContentRequest where
  Author : String
  LifecycleState : String
  SpecificContent : SpecificContent
  Visibility : Visibility
  deriving DecidableEq, Repr

structure ServiceRelationship where
  RelationshipType : String
  Identifier : String
  deriving DecidableEq, Repr

/-- The two slices have no `omitempty`: `none` is the nil slice, encoded as
`null`, and `some xs` a non-nil slice, encoded as an array. -/
structure RegisterUpload where
  Recipes : Option (List String)
  Owner : String
  ServiceRelationships : Option (List ServiceRelationship)
  deriving DecidableEq, Repr

structure RegisterUploadRequest where
  RegisterUpload : RegisterUpload
  deriving DecidableEq, Repr

/-- The `Headers` map is kept as an association list with distinct keys; the
nil map and the empty map are both the empty list. -/
structure MediaUploadHttpRequest where
  Headers : List (String × String)
  UploadURL : String
  deriving DecidableEq, Repr

structure UploadMechanism where
  MediaUploadHttpRequest : MediaUploadHttpRequest
  deriving DecidableEq, Repr

structure RegisterUploadValue where
  UploadMechanism : UploadMechanism
  MediaArtifact : String
  Asset : String
  deriving DecidableEq, Repr

structure RegisterUploadResponse where
  Value : RegisterUploadValue
  deriving DecidableEq, Repr

/-- The Go zero value `RegisterUploadResponse{}`. -/
def RegisterUploadResponse.zero : RegisterUploadResponse :=
  { Value := { UploadMechanism := { MediaUploadHttpRequest := { Headers := [], UploadURL := "" } },
               MediaArtifact := "", Asset := "" } }

/-! ## Struct encodings, following the `json:"..."` tags

Fields are written in declaration order.  `omitempty` drops a string field
that is empty and a slice field of length zero; on a struct-typed field it
drops nothing. -/

/-- A string field with `omitempty`. -/
def omitEmptyString (key value : String) : List (String × JSON) :=
  if value = "" then [] else [(key, .str value)]

instance : ToJSON ShareCommentary where
  toJSON v := .obj [("text", .str v.Text)]

instance : ToJSON ShareDescription where
  toJSON v := .obj [("text", .str v.Text)]

instance : ToJSON ShareTitle where
  toJSON v := .obj [("text", .str v.Text)]

instance : ToJSON ShareMedia where
  toJSON v := .obj (
    [("status", .str v.Status), ("description", ToJSON.toJSON v.Description)]
    ++ omitEmptyString "media" v.Media
    ++ omitEmptyString "originalUrl" v.OriginalURL
    ++ [("title", ToJSON.toJSON v.Title)])

instance : ToJSON ShareContent where
  toJSON v := .obj (
    [("shareCommentary", ToJSON.toJSON v.ShareCommentary),
     ("shareMediaCategory", .str v.ShareMediaCategory)]
    ++ (if v.Media.length = 0 then [] else [("media", .arr (v.Media.map ToJSON.toJSON))]))

instance : ToJSON SpecificContent where
  toJSON v := .obj [("com.linkedin.ugc.ShareContent", ToJSON.toJSON v.ShareContent)]

instance : ToJSON Visibility where
  toJSON v := .obj [("com.linkedin.ugc.MemberNetworkVisibility", .str v.MemberNetworkVisibility)]

instance : ToJSON ShareContentRequest where
  toJSON v := .obj [
    ("author", .str v.Author),
    ("lifecycleState", .str v.LifecycleState),
    ("specificContent", ToJSON.toJSON v.SpecificContent),
    ("visibility", ToJSON.toJSON v.Visibility)]

instance : ToJSON ServiceRelationship where
  toJSON v := .obj [
    ("relationshipType", .str v.RelationshipType),
    ("identifier", .str v.Identifier)]

/-- A slice field without `omitempty`. -/
def sliceJSON {α : Type} (f : α → JSON) : Option (List α) → JSON
  | none => .null
  | some xs => .arr (xs.map f)

instance : ToJSON RegisterUpload where
  toJSON v := .obj [
    ("recipes", sliceJSON JSON.str v.Recipes),
    ("owner", .str v.Owner),
    ("serviceRelationships", sliceJSON ToJSON.toJSON v.ServiceRelationships)]

instance : ToJSON RegisterUploadRequest where
  toJSON v := .obj [("registerUploadRequest", ToJSON.toJSON v.RegisterUpload)]

/-! ## `json.Unmarshal`

The decoder first checks the whole input against the JSON grammar and only
then stores values, so a syntax error anywhere wins over a type mismatch.
Here the input is parsed into a `JSON` document (failing on exactly the
inputs the grammar rejects) and the document is then stored into the target
struct.  Bytes are handled as numbers below 256. -/

/-- Skip JSON white space: space, tab, line feed, carriage return. -/
def skipWS : List Nat → List Nat
  | [] => []
  | c :: cs => if c = 32 ∨ c = 9 ∨ c = 10 ∨ c = 13 then skipWS cs else c :: cs

/-- Whether `b` is a UTF-8 continuation byte within `lo..hi`. -/
def inRange (lo hi b : Nat) : Bool := lo ≤ b && b ≤ hi

/-- `utf8.DecodeRune` on a non-empty input whose first byte is `b0`: the
code point and the number of bytes it takes.  An ill-formed sequence gives
U+FFFD and width 1. -/
def decodeRune (b0 : Nat) (rest : List Nat) : Nat × Nat :=
  if b0 < 0x80 then (b0, 1)
  else if inRange 0xC2 0xDF b0 then
    match rest with
    | b1 :: _ => if inRange 0x80 0xBF b1 then ((b0 % 32) * 64 + b1 % 64, 2) else (0xFFFD, 1)
    | _ => (0xFFFD, 1)
  else if inRange 0xE0 0xEF b0 then
    match rest with
    | b1 :: b2 :: _ =>
      let lo := if b0 = 0xE0 then 0xA0 else 0x80
      let hi := if b0 = 0xED then 0x9F else 0xBF
      if inRange lo hi b1 && inRange 0x80 0xBF b2 then
        ((b0 % 16) * 4096 + (b1 % 64) * 64 + b2 % 64, 3)
      else (0xFFFD, 1)
    | _ => (0xFFFD, 1)
  else if inRange 0xF0 0xF4 b0 then
    match rest with
    | b1 :: b2 :: b3 :: _ =>
      let lo := if b0 = 0xF0 then 0x90 else 0x80
      let hi := if b0 = 0xF4 then 0x8F else 0xBF
      if inRange lo hi b1 && inRange 0x80 0xBF b2 && inRange 0x80 0xBF b3 then
        ((b0 % 8) * 262144 + (b1 % 64) * 4096 + (b2 % 64) * 64 + b3 % 64, 4)
      else (0xFFFD, 1)
    | _ => (0xFFFD, 1)
  else (0xFFFD, 1)

/-- The value of a hexadecimal digit, either case. -/
def hexValue (c : Nat) : Option Nat :=
  if 48 ≤ c ∧ c ≤ 57 then some (c - 48)
  else if 97 ≤ c ∧ c ≤ 102 then some (c - 87)
  else if 65 ≤ c ∧ c ≤ 70 then some (c - 55)
  else none

/-- Four hexadecimal digits at the head of the input. -/
def hex4 : List Nat → Option (Nat × List Nat)
  | a :: b :: c :: d :: rest =>
    match hexValue a, hexValue b, hexValue c, hexValue d with
    | some x, some y, some z, some t => some (x * 4096 + y * 256 + z * 16 + t, rest)
    | _, _, _, _ => none
  | _ => none

/-- The function `getu4` of the decoder: the code unit of a `\uXXXX` at the
head of the input. -/
def getu4 : List Nat → Option (Nat × List Nat)
  | 92 :: 117 :: rest => hex4 rest
  | _ => none

/-- The character of a one-letter escape `\c`. -/
def simpleEscape (c : Nat) : Option Char :=
  if c = 34 then some '"'
  else if c = 92 then some '\\'
  else if c = 47 then some '/'
  else if c = 98 then some (Char.ofNat 8)
  else if c = 102 then some (Char.ofNat 12)
  else if c = 110 then some '\n'
  else if c = 114 then some '\r'
  else if c = 116 then some '\t'
  else none

/-- The rest of a string literal after its opening quote: the decoded text
and the input after the closing quote.  `acc` holds the characters read so
far, last first.  A control byte, an unknown escape and a missing closing
quote are syntax errors; ill-formed UTF-8 and unpaired surrogates become
U+FFFD.  The first argument bounds the number of steps; from the length of
the input plus one on, the result no longer depends on it
(`parseStringBody_enough`). -/
def parseStringBody : Nat → List Nat → List Char → Option (String × List Nat)
  | 0, _, _ => none
  | _ + 1, [], _ => none
  | fuel + 1, c :: rest, acc =>
    if c = 34 then some (String.mk acc.reverse, rest)
    else if c = 92 then
      match rest with
      | [] => none
      | e :: rest1 =>
        if e = 117 then
          match hex4 rest1 with
          | none => none
          | some (rr, rest2) =>
            if 0xD800 ≤ rr ∧ rr < 0xE000 then
              match getu4 rest2 with
              | some (rr1, rest3) =>
                if rr < 0xDC00 ∧ 0xDC00 ≤ rr1 ∧ rr1 < 0xE000 then
                  parseStringBody fuel rest3
                    (Char.ofNat ((rr - 0xD800) * 1024 + (rr1 - 0xDC00) + 0x10000) :: acc)
                else parseStringBody fuel rest2 (Char.ofNat 0xFFFD :: acc)
              | none => parseStringBody fuel rest2 (Char.ofNat 0xFFFD :: acc)
            else parseStringBody fuel rest2 (Char.ofNat rr :: acc)
        else
          match simpleEscape e with
          | some ch => parseStringBody fuel rest1 (ch :: acc)
          | none => none
    else if c < 32 then none
    else
      let (r, size) := decodeRune c rest
      parseStringBody fuel (rest.drop (size - 1)) (Char.ofNat r :: acc)

/-- A run of decimal digits at the head of the input. -/
def takeDigits : List Nat → List Nat × List Nat
  | [] => ([], [])
  | c :: cs =>
    if 48 ≤ c ∧ c ≤ 57 then
      let (ds, rest) := takeDigits cs
      (c :: ds, rest)
    else ([], c :: cs)

/-- The integer part of a number: `0`, or a non-zero digit and more digits. -/
def parseInt : List Nat → Option (List Nat × List Nat)
  | [] => none
  | c :: cs =>
    if c = 48 then some ([48], cs)
    else if 49 ≤ c ∧ c ≤ 57 then
      let (ds, rest) := takeDigits cs
      some (c :: ds, rest)
    else none

/-- An optional fraction: a dot and at least one digit. -/
def parseFrac : List Nat → Option (List Nat × List Nat)
  | 46 :: cs =>
    match takeDigits cs with
    | ([], _) => none
    | (ds, rest) => some (46 :: ds, rest)
  | cs => some ([], cs)

/-- An optional exponent: `e` or `E`, an optional sign, at least one digit. -/
def parseExp : List Nat → Option (List Nat × List Nat)
  | [] => some ([], [])
  | c :: cs =>
    if c = 101 ∨ c = 69 then
      let (sign, cs1) : List Nat × List Nat :=
        match cs with
        | s :: cs1 => if s = 43 ∨ s = 45 then ([s], cs1) else ([], cs)
        | [] => ([], [])
      match takeDigits cs1 with
      | ([], _) => none
      | (ds, rest) => some (c :: sign ++ ds, rest)
    else some ([], c :: cs)

/-- A JSON number at the head of the input, kept as its text. -/
def parseNumber (input : List Nat) : Option (String × List Nat) :=
  let (sign, cs) : List Nat × List Nat :=
    match input with
    | 45 :: cs => ([45], cs)
    | cs => ([], cs)
  match parseInt cs with
  | none => none
  | some (i, cs1) =>
    match parseFrac cs1 with
    | none => none
    | some (f, cs2) =>
      match parseExp cs2 with
      | none => none
      | some (e, cs3) => some (String.mk ((sign ++ i ++ f ++ e).map Char.ofNat), cs3)

/-- Read the exact bytes `word` off the head of the input. -/
def expect : List Nat → List Nat → Option (List Nat)
  | [], input => some input
  | _ :: _, [] => none
  | w :: ws, c :: cs => if w = c then expect ws cs else none

mutual
/-- One JSON value at the head of the input, after optional white space, and
the input that follows it.  `none` is a syntax error.  The first argument
bounds the number of nested calls; from twice the length of the input plus
one on, the result no longer depends on it (`parseValue_fuel`). -/
def parseValue : Nat → List Nat → Option (JSON × List Nat)
  | 0, _ => none
  | fuel + 1, input =>
    match skipWS input with
    | [] => none
    | c :: rest =>
      if c = 123 then
        match skipWS rest with
        | 125 :: rest1 => some (.obj [], rest1)
        | _ => parseMembers fuel rest []
      else if c = 91 then
        match skipWS rest with
        | 93 :: rest1 => some (.arr [], rest1)
        | _ => parseItems fuel rest []
      else if c = 34 then
        match parseStringBody (rest.length + 1) rest [] with
        | some (s, rest1) => some (.str s, rest1)
        | none => none
      else if c = 116 then (expect [114, 117, 101] rest).map (fun r => (.bool true, r))
      else if c = 102 then (expect [97, 108, 115, 101] rest).map (fun r => (.bool false, r))
      else if c = 110 then (expect [117, 108, 108] rest).map (fun r => (.null, r))
      else
        match parseNumber (c :: rest) with
        | some (raw, rest1) => some (.num raw, rest1)
        | none => none
/-- The members of an object after `{` or a comma, up to and including the
closing brace. `acc` holds the members read so far. -/
def parseMembers : Nat → List Nat → List (String × JSON) → Option (JSON × List Nat)
  | 0, _, _ => none
  | fuel + 1, input, acc =>
    match skipWS input with
    | 34 :: rest =>
      match parseStringBody (rest.length + 1) rest [] with
      | none => none
      | some (key, rest1) =>
        match skipWS rest1 with
        | 58 :: rest2 =>
          match parseValue fuel rest2 with
          | none => none
          | some (v, rest3) =>
            match skipWS rest3 with
            | 44 :: rest4 => parseMembers fuel rest4 (acc ++ [(key, v)])
            | 125 :: rest4 => some (.obj (acc ++ [(key, v)]), rest4)
            | _ => none
        | _ => none
    | _ => none
/-- The elements of an array after `[` or a comma, up to and including the
closing bracket. `acc` holds the elements read so far. -/
def parseItems : Nat → List Nat → List JSON → Option (JSON × List Nat)
  | 0, _, _ => none
  | fuel + 1, input, acc =>
    match parseValue fuel input with
    | none => none
    | some (v, rest) =>
      match skipWS rest with
      | 44 :: rest1 => parseItems fuel rest1 (acc ++ [v])
      | 93 :: rest1 => some (.arr (acc ++ [v]), rest1)
      | _ => none
end

/-- The JSON document the input spells: one value, white space around it
allowed, nothing else. -/
def parseJSON (data : Bytes) : Except GoError JSON :=
  let input := data.map UInt8.toNat
  match parseValue (2 * input.length + 1) input with
  | none => .error (.malformedJSON "invalid JSON input")
  | some (v, rest) =>
    match skipWS rest with
    | [] => .ok v
    | _ :: _ => .error (.malformedJSON "invalid character after top-level value")

/-- The representative `encoding/json` compares names by when no field has
exactly the key as its name: ASCII letters in upper case, and the two
characters outside ASCII that fold to an ASCII letter, the Kelvin sign and
the long s. -/
def foldRune (c : Char) : Char :=
  if c.toNat = 0x212A then 'K' else if c.toNat = 0x17F then 'S' else c.toUpper

/-- The folded form of a name. -/
def foldName (s : String) : String := String.mk (s.data.map foldRune)

/-- The struct field a key of a JSON object is stored into: the field of
exactly that name, else the first field with the same folded name. -/
def findField (fields : List String) (key : String) : Option String :=
  match fields.find? (fun f => f = key) with
  | some f => some f
  | none => fields.find? (fun f => foldName f = foldName key)

/-- Store a JSON value into a Go `string`: a string is stored, `null` leaves
the old value, anything else is an `UnmarshalTypeError`. -/
def storeString (field : String) (old : String) : JSON → Except GoError String
  | .str s => .ok s
  | .null => .ok old
  | _ => .error (.jsonType field)

/-- Assignment `m[key] = value` on a map kept as an association list. -/
def mapAssign (m : List (String × String)) (key value : String) : List (String × String) :=
  if m.any (fun kv => kv.1 = key) then
    m.map (fun kv => if kv.1 = key then (key, value) else kv)
  else m ++ [(key, value)]

/-- Store a JSON value into a `map[string]string`: an object assigns its
members in order (a `null` member assigns the empty string), `null` makes
the map nil. -/
def storeHeaders (old : List (String × String)) : JSON → Except GoError (List (String × String))
  | .obj members =>
    members.foldlM (fun m kv => do
      let v ← storeString "headers" "" kv.2
      pure (mapAssign m kv.1 v)) old
  | .null => .ok []
  | _ => .error (.jsonType "headers")

/-- Store a JSON value into a `MediaUploadHttpRequest`. -/
def storeMediaUploadHttpRequest (old : MediaUploadHttpRequest) :
    JSON → Except GoError MediaUploadHttpRequest
  | .obj members =>
    members.foldlM (fun acc kv =>
      match findField ["headers", "uploadUrl"] kv.1 with
      | some "headers" => do
        let h ← storeHeaders acc.Headers kv.2
        pure { acc with Headers := h }
      | some "uploadUrl" => do
        let u ← storeString "uploadUrl" acc.UploadURL kv.2
        pure { acc with UploadURL := u }
      | _ => pure acc) old
  | .null => .ok old
  | _ => .error (.jsonType "MediaUploadHttpRequest")

/-- Store a JSON value into an `UploadMechanism`. -/
def storeUploadMechanism (old : UploadMechanism) : JSON → Except GoError UploadMechanism
  | .obj members =>
    members.foldlM (fun acc kv =>
      match findField ["com.linkedin.digitalmedia.uploading.MediaUploadHttpRequest"] kv.1 with
      | some _ => do
        let r ← storeMediaUploadHttpRequest acc.MediaUploadHttpRequest kv.2
        pure { acc with MediaUploadHttpRequest := r }
      | none => pure acc) old
  | .null => .ok old
  | _ => .error (.jsonType "UploadMechanism")

/-- Store a JSON value into a `RegisterUploadValue`. -/
def storeRegisterUploadValue (old : RegisterUploadValue) :
    JSON → Except GoError RegisterUploadValue
  | .obj members =>
    members.foldlM (fun acc kv =>
      match findField ["uploadMechanism", "mediaArtifact", "asset"] kv.1 with
      | some "uploadMechanism" => do
        let m ← storeUploadMechanism acc.UploadMechanism kv.2
        pure { acc with UploadMechanism := m }
      | some "mediaArtifact" => do
        let a ← storeString "mediaArtifact" acc.MediaArtifact kv.2
        pure { acc with MediaArtifact := a }
      | some "asset" => do
        let a ← storeString "asset" acc.Asset kv.2
        pure { acc with Asset := a }
      | _ => pure acc) old
  | .null => .ok old
  | _ => .error (.jsonType "RegisterUploadValue")

/-- Store a JSON value into a `RegisterUploadResponse`. -/
def storeRegisterUploadResponse (old : RegisterUploadResponse) :
    JSON → Except GoError RegisterUploadResponse
  | .obj members =>
    members.foldlM (fun acc kv =>
      match findField ["value"] kv.1 with
      | some _ => do
        let v ← storeRegisterUploadValue acc.Value kv.2
        pure { acc with Value := v }
      | none => pure acc) old
  | .null => .ok old
  | _ => .error (.jsonType "RegisterUploadResponse")

/-- The call `json.Unmarshal(body, &registerUploadResponse)` on a variable
holding the zero value; the result is the variable afterwards, or the error.
(On an error the Go variable may be partly filled; the client discards it.) -/
def Unmarshal (data : Bytes) : Except GoError RegisterUploadResponse :=
  match parseJSON data with
  | .error err => .error err
  | .ok j => storeRegisterUploadResponse RegisterUploadResponse.zero j

/-! ## The client (`linkedinapi.go` lines 112-268) -/

/-- Client struct for LinkedIn API. -/
structure Client where
  AccessToken : String
  httpClient : HttpClient

/-- NewClient initializes a new LinkedIn API client. -/
def NewClient (accessToken : String) : Client :=
  { AccessToken := accessToken, httpClient := { Transport := none } }

/-- `req.Header.Set(key, value)`. -/
def Request.setHeader (req : Request) (key value : String) : Request :=
  { req with Header := req.Header.Set key value }

/-- The method `doRequest`: marshal the body, build the request, set the
three headers, send it through the stored client. -/
def Client.doRequest {α : Type} [ToJSON α] (w : World) (c : Client) (method url : String)
    (requestBody : α) : Except GoError Response × List Effect :=
  let jsonData := Marshal requestBody
  match NewRequest w method url jsonData with
  | .error err => (.error err, [])
  | .ok req =>
    let req := req.setHeader "Content-Type" "application/json"
    let req := req.setHeader "X-Restli-Protocol-Version" "2.0.0"
    let req := req.setHeader "Authorization" ("Bearer " ++ c.AccessToken)
    match c.httpClient.Do w req with
    | .error err => (.error err, [.send c.httpClient req])
    | .ok resp => (.ok resp, [.send c.httpClient req])

/-- The method `CreateShare`. -/
def Client.CreateShare (w : World) (c : Client) (shareRequest : ShareContentRequest) :
    (String × Option GoError) × List Effect :=
  let url := baseURL ++ ugcPostsEndpoint
  match c.doRequest w MethodPost url shareRequest with
  | (.error err, fx) => (("", some err), fx)
  | (.ok resp, fx) =>
    match resp.Body with
    | .error err => (("", some err), fx)
    | .ok body =>
      let fx := fx ++ [.log body]
      if resp.StatusCode ≠ StatusCreated then
        (("", some (.new "failed to create share")), fx)
      else
        ((resp.Header.Get "X-RestLi-Id", none), fx)

/-- The method `ShareText`. -/
def Client.ShareText (w : World) (c : Client) (personURN text : String) :
    (String × Option GoError) × List Effect :=
  let shareRequest : ShareContentRequest := {
    Author := personURN,
    LifecycleState := "PUBLISHED",
    SpecificContent := {
      ShareContent := {
        ShareCommentary := { Text := text },
        ShareMediaCategory := "NONE",
        Media := []
      }
    },
    Visibility := { MemberNetworkVisibility := "PUBLIC" }
  }
  c.CreateShare w shareRequest

/-- The method `ShareArticle`. -/
def Client.ShareArticle (w : World) (c : Client) (personURN text url title description : String) :
    (String × Option GoError) × List Effect :=
  let shareRequest : ShareContentRequest := {
    Author := personURN,
    LifecycleState := "PUBLISHED",
    SpecificContent := {
      ShareContent := {
        ShareCommentary := { Text := text },
        ShareMediaCategory := "ARTICLE",
        Media := [
          { Status := "READY",
            Description := { Text := description },
            Media := "",
            OriginalURL := url,
            Title := { Text := title } }
        ]
      }
    },
    Visibility := { MemberNetworkVisibility := "PUBLIC" }
  }
  c.CreateShare w shareRequest

/-- The method `RegisterUpload`. -/
def Client.RegisterUpload (w : World) (c : Client) (registerUploadRequest : RegisterUploadRequest) :
    (RegisterUploadResponse × Option GoError) × List Effect :=
  let url := baseURL ++ assetsEndpoint ++ "?action=registerUpload"
  match c.doRequest w MethodPost url registerUploadRequest with
  | (.error err, fx) => ((RegisterUploadResponse.zero, some err), fx)
  | (.ok resp, fx) =>
    if resp.StatusCode ≠ StatusOK then
      ((RegisterUploadResponse.zero, some (.new "failed to register upload")), fx)
    else
      match resp.Body with
      | .error err => ((RegisterUploadResponse.zero, some err), fx)
      | .ok body =>
        match Unmarshal body with
        | .error err => ((RegisterUploadResponse.zero, some err), fx)
        | .ok registerUploadResponse => ((registerUploadResponse, none), fx)

/-- The method `UploadImage`: the request is sent through a fresh
`&http.Client{}`, not through the stored client. -/
def Client.UploadImage (w : World) (c : Client) (uploadURL imagePath : String) :
    Option GoError × List Effect :=
  match w.ReadFile imagePath with
  | .error err => (some err, [])
  | .ok imgData =>
    match NewRequest w MethodPost uploadURL imgData with
    | .error err => (some err, [])
    | .ok req =>
      let req := req.setHeader "Authorization" ("Bearer " ++ c.AccessToken)
      let req := req.setHeader "Content-Type" "application/octet-stream"
      let client : HttpClient := { Transport := none }
      match client.Do w req with
      | .error err => (some err, [.send client req])
      | .ok resp =>
        if resp.StatusCode ≠ StatusOK then
          (some (.new "failed to upload image"), [.send client req])
        else
          (none, [.send client req])

/-! ## The test file (`linkedinapi_test.go`) -/

/-- MockTransport is a mock HTTP round tripper that returns a fixed response
and error. -/
structure MockTransport where
  response : Response
  err : Option GoError

/-- The method `RoundTrip` of the mock. -/
def MockTransport.RoundTrip (t : MockTransport) : RoundTripper := fun _ =>
  match t.err with
  | some err => .error err
  | none => .ok t.response

/-- A world without network and without files, in which every URL parses. -/
def testWorld : World :=
  { DefaultTransport := fun _ => .error (.transport "no network"),
    ReadFile := fun _ => .error (.file "no such file"),
    urlParseError := fun _ => none }

/-- The mock of `TestCreateShare`: status 201, the identifier header, an
empty body. -/
def mockTransport : MockTransport :=
  { response := { StatusCode := StatusCreated, Header := [("X-Restli-Id", ["1234"])], Body := .ok [] },
    err := none }

/-- The client of `TestCreateShare`, its transport set to the mock. -/
def testClient : Client :=
  { AccessToken := "test-access-token", httpClient := { Transport := some mockTransport.RoundTrip } }

/-- The share request of `TestCreateShare`. -/
def testShareRequest : ShareContentRequest :=
  { Author := "urn:li:person:<person-id>",
    LifecycleState := "PUBLISHED",
    SpecificContent := {
      ShareContent := {
        ShareCommentary := { Text := "Test share" },
        ShareMediaCategory := "NONE",
        Media := [] } },
    Visibility := { MemberNetworkVisibility := "PUBLIC" } }

/-- A 400 response that carries the identifier header all the same. -/
def rejectedResponse : Response :=
  { StatusCode := 400, Header := [("X-Restli-Id", ["1234"])], Body := .ok [] }

/-- A 201 response without the identifier header. -/
def createdWithoutId : Response :=
  { StatusCode := 201, Header := [("Content-Length", ["0"])], Body := .ok [] }

/-- A client whose transport answers every request with `resp`. -/
def clientAnswering (resp : Response) : Client :=
  { AccessToken := "test-access-token",
    httpClient := { Transport := some (MockTransport.RoundTrip { response := resp, err := none }) } }

/-- The bytes of the file `image.png` in the example worlds. -/
def imageBytes : Bytes := [137, 80, 78, 71, 13, 10, 26, 10]

/-- A world whose only file is `image.png`, in which every URL parses and the
default transport answers every request with the given status and an empty
body. -/
def imageWorld (status : Int) : World :=
  { DefaultTransport := fun _ => .ok { StatusCode := status, Header := [], Body := .ok [] },
    ReadFile := fun path =>
      if path = "image.png" then .ok imageBytes else .error (.file "no such file"),
    urlParseError := fun _ => none }

/-- A share request a caller may pass to `CreateShare`: media category NONE
together with one media item. -/
def mixedShareRequest : ShareContentRequest :=
  { Author := "urn:li:person:X",
    LifecycleState := "PUBLISHED",
    SpecificContent := {
      ShareContent := {
        ShareCommentary := { Text := "hello" },
        ShareMediaCategory := "NONE",
        Media := [
          { Status := "READY",
            Description := { Text := "" },
            Media := "urn:li:digitalmediaAsset:123",
            OriginalURL := "",
            Title := { Text := "" } }
        ] } },
    Visibility := { MemberNetworkVisibility := "PUBLIC" } }

/-- The body of a registration response in the form the API documents. -/
def registrationBody : Bytes :=
  utf8 "\x7b\"value\":\x7b\"asset\":\"urn:li:digitalmediaAsset:123\",\"mediaArtifact\":\"urn:li:digitalmediaMediaArtifact:(urn:li:digitalmediaAsset:123,urn:li:digitalmediaMediaArtifactClass:uploaded-image)\",\"uploadMechanism\":\x7b\"com.linkedin.digitalmedia.uploading.MediaUploadHttpRequest\":\x7b\"headers\":\x7b\"media-type-family\":\"STILLIMAGE\"\x7d,\"uploadUrl\":\"https://api.linkedin.com/mediaUpload/123?ca=vector_feedshare\"\x7d\x7d\x7d\x7d"

/-- A response with the given status and body and no headers. -/
def plainResponse (status : Int) (body : Bytes) : Response :=
  { StatusCode := status, Header := [], Body := .ok body }

/-- A registration request for a feed-share image. -/
def testRegisterRequest : RegisterUploadRequest :=
  { RegisterUpload := {
      Recipes := some ["urn:li:digitalmediaRecipe:feedshare-image"],
      Owner := "urn:li:person:X",
      ServiceRelationships := some [
        { RelationshipType := "OWNER", Identifier := "urn:li:userGeneratedContent" }] } }

/-- The media item `ShareArticle` builds for an empty title and description. -/
def bareArticleItem (url : String) : ShareMedia :=
  { Status := "READY", Description := { Text := "" }, Media := "", OriginalURL := url,
    Title := { Text := "" } }

/-! ## Lemmas on headers and on `doRequest` -/

theorem canonical_contentType : CanonicalMIMEHeaderKey "Content-Type" = "Content-Type" := by
  decide

theorem canonical_protocolVersion :
    CanonicalMIMEHeaderKey "X-Restli-Protocol-Version" = "X-Restli-Protocol-Version" := by
  decide

theorem canonical_authorization : CanonicalMIMEHeaderKey "Authorization" = "Authorization" := by
  decide

theorem canonical_restliId : CanonicalMIMEHeaderKey "X-RestLi-Id" = "X-Restli-Id" := by
  decide

/-- `Header.Get "X-RestLi-Id"` reads the map at the canonical key. -/
theorem get_restliId (h : Header) :
    h.Get "X-RestLi-Id" = ((h.index "X-Restli-Id").bind List.head?).getD "" := by
  unfold Header.Get
  rw [canonical_restliId]
  cases h.index "X-Restli-Id" with
  | none => rfl
  | some vs => cases vs <;> rfl

/-- Once the URL parses, `doRequest` hands exactly one request to the stored
client and returns what that client's `Do` returns. -/
theorem doRequest_eq {α : Type} [ToJSON α] (w : World) (c : Client) (method url : String)
    (requestBody : α) (hurl : w.urlParseError url = none) :
    c.doRequest w method url requestBody =
      (c.httpClient.Do w
          { Method := method, URL := url,
            Header := [("Authorization", ["Bearer " ++ c.AccessToken]),
                       ("X-Restli-Protocol-Version", ["2.0.0"]),
                       ("Content-Type", ["application/json"])],
            Body := Marshal requestBody },
        [Effect.send c.httpClient
          { Method := method, URL := url,
            Header := [("Authorization", ["Bearer " ++ c.AccessToken]),
                       ("X-Restli-Protocol-Version", ["2.0.0"]),
                       ("Content-Type", ["application/json"])],
            Body := Marshal requestBody }]) := by
  simp only [Client.doRequest, NewRequest, hurl, Request.setHeader, Header.Set,
    canonical_contentType, canonical_protocolVersion, canonical_authorization]
  simp only [List.filter, show ("Content-Type" != "X-Restli-Protocol-Version") = true by decide,
    show ("X-Restli-Protocol-Version" != "Authorization") = true by decide,
    show ("Content-Type" != "Authorization") = true by decide]
  cases c.httpClient.Do w _ <;> rfl

/-- When the URL does not parse, `doRequest` returns that error and sends
nothing. -/
theorem doRequest_badURL {α : Type} [ToJSON α] (w : World) (c : Client) (method url : String)
    (requestBody : α) (err : GoError) (hurl : w.urlParseError url = some err) :
    c.doRequest w method url requestBody = (.error err, []) := by
  simp only [Client.doRequest, NewRequest, hurl]

theorem ugcPosts_url : baseURL ++ ugcPostsEndpoint = "https://api.linkedin.com/v2/ugcPosts" := by
  decide

theorem assets_url : baseURL ++ assetsEndpoint ++ "?action=registerUpload" =
    "https://api.linkedin.com/v2/assets?action=registerUpload" := by
  decide

/-- What `CreateShare` returns once the transport has delivered a response
whose body could be read. -/
theorem CreateShare_of_response (w : World) (c : Client) (shareRequest : ShareContentRequest)
    (resp : Response) (body : Bytes)
    (hurl : w.urlParseError "https://api.linkedin.com/v2/ugcPosts" = none)
    (hdo : c.httpClient.Do w
        { Method := "POST", URL := "https://api.linkedin.com/v2/ugcPosts",
          Header := [("Authorization", ["Bearer " ++ c.AccessToken]),
                     ("X-Restli-Protocol-Version", ["2.0.0"]),
                     ("Content-Type", ["application/json"])],
          Body := Marshal shareRequest } = .ok resp)
    (hbody : resp.Body = .ok body) :
    (c.CreateShare w shareRequest).1 =
      if resp.StatusCode ≠ 201 then ("", some (GoError.new "failed to create share"))
      else (resp.Header.Get "X-RestLi-Id", none) := by
  have h := doRequest_eq w c MethodPost "https://api.linkedin.com/v2/ugcPosts" shareRequest hurl
  simp only [MethodPost] at h
  simp only [Client.CreateShare, ugcPosts_url, MethodPost, h, hdo, hbody, StatusCreated]
  split <;> rfl

/-- The effects of `CreateShare`: nothing when the URL does not parse, else
the one request, built by `doRequest` and handed to the stored client,
followed by the log line when the body could be read. -/
theorem CreateShare_effects (w : World) (c : Client) (shareRequest : ShareContentRequest) :
    sentRequests (c.CreateShare w shareRequest).2 =
      (if w.urlParseError "https://api.linkedin.com/v2/ugcPosts" = none then
        [{ Method := "POST", URL := "https://api.linkedin.com/v2/ugcPosts",
           Header := [("Authorization", ["Bearer " ++ c.AccessToken]),
                      ("X-Restli-Protocol-Version", ["2.0.0"]),
                      ("Content-Type", ["application/json"])],
           Body := Marshal shareRequest }]
      else []) ∧
    sentVia (c.CreateShare w shareRequest).2 =
      (if w.urlParseError "https://api.linkedin.com/v2/ugcPosts" = none then [c.httpClient]
      else []) := by
  cases hurl : w.urlParseError "https://api.linkedin.com/v2/ugcPosts" with
  | some err =>
    have h := doRequest_badURL w c MethodPost "https://api.linkedin.com/v2/ugcPosts"
      shareRequest err hurl
    simp only [Client.CreateShare, ugcPosts_url, h]
    simp [sentRequests, sentVia]
  | none =>
    have h := doRequest_eq w c MethodPost "https://api.linkedin.com/v2/ugcPosts" shareRequest hurl
    simp only [MethodPost] at h
    simp only [Client.CreateShare, ugcPosts_url, MethodPost, h]
    rcases hd : c.httpClient.Do w _ with err | resp
    · simp [sentRequests, sentVia]
    · rcases hb : resp.Body with err | body
      · simp [hb, sentRequests, sentVia]
      · by_cases hs : resp.StatusCode = StatusCreated <;> simp [hb, hs, sentRequests, sentVia]

/-- The compact JSON text of the request `ShareText` builds. -/
theorem render_textShare (u t : String) :
    render (.obj [("author", .str u), ("lifecycleState", .str "PUBLISHED"),
        ("specificContent", .obj [("com.linkedin.ugc.ShareContent",
            .obj [("shareCommentary", .obj [("text", .str t)]),
                  ("shareMediaCategory", .str "NONE")])]),
        ("visibility", .obj [("com.linkedin.ugc.MemberNetworkVisibility", .str "PUBLIC")])]) =
    "\x7b\"author\":" ++ quote u ++ ",\"lifecycleState\":\"PUBLISHED\",\"specificContent\":\x7b\"com.linkedin.ugc.ShareContent\":\x7b\"shareCommentary\":\x7b\"text\":" ++ quote t ++ "\x7d,\"shareMediaCategory\":\"NONE\"\x7d\x7d,\"visibility\":\x7b\"com.linkedin.ugc.MemberNetworkVisibility\":\"PUBLIC\"\x7d\x7d" := by
  simp only [render, renderMembers]
  apply String.ext
  simp only [String.data_append]
  generalize (quote u).data = qu
  generalize (quote t).data = qt
  simp only [List.append_assoc]
  set_option maxRecDepth 100000 in rfl

/-- Once the file is read and the URL parses, `UploadImage` hands exactly one
request to a fresh default client, and its result depends on the reply of
`http.DefaultTransport` alone. -/
theorem UploadImage_eq (w : World) (c : Client) (uploadURL imagePath : String) (imgData : Bytes)
    (hfile : w.ReadFile imagePath = .ok imgData) (hurl : w.urlParseError uploadURL = none) :
    c.UploadImage w uploadURL imagePath =
      ((match w.DefaultTransport
            { Method := "POST", URL := uploadURL,
              Header := [("Content-Type", ["application/octet-stream"]),
                         ("Authorization", ["Bearer " ++ c.AccessToken])],
              Body := imgData } with
        | .error err => some err
        | .ok resp =>
          if resp.StatusCode ≠ 200 then some (GoError.new "failed to upload image") else none),
       [Effect.send { Transport := none }
          { Method := "POST", URL := uploadURL,
            Header := [("Content-Type", ["application/octet-stream"]),
                       ("Authorization", ["Bearer " ++ c.AccessToken])],
            Body := imgData }]) := by
  simp only [Client.UploadImage, hfile, NewRequest, hurl, Request.setHeader, Header.Set,
    canonical_contentType, canonical_authorization, MethodPost, HttpClient.Do, StatusOK]
  simp only [List.filter, show ("Authorization" != "Content-Type") = true by decide]
  rcases hd : w.DefaultTransport _ with err | resp
  · rfl
  · by_cases hs : resp.StatusCode = 200 <;> simp [hs]

/-- The effects of `UploadImage`: nothing unless the file was read and the URL
parses, else the one request, handed to a fresh default client. -/
theorem UploadImage_effects (w : World) (c : Client) (uploadURL imagePath : String) :
    sentRequests (c.UploadImage w uploadURL imagePath).2 =
      (match w.ReadFile imagePath with
       | .error _ => []
       | .ok imgData =>
         if w.urlParseError uploadURL = none then
           [{ Method := "POST", URL := uploadURL,
              Header := [("Content-Type", ["application/octet-stream"]),
                         ("Authorization", ["Bearer " ++ c.AccessToken])],
              Body := imgData }]
         else []) ∧
    sentVia (c.UploadImage w uploadURL imagePath).2 =
      (match w.ReadFile imagePath with
       | .error _ => []
       | .ok _ => if w.urlParseError uploadURL = none then [{ Transport := none }] else []) := by
  rcases hfile : w.ReadFile imagePath with err | imgData
  · simp [Client.UploadImage, hfile, sentRequests, sentVia]
  · rcases hurl : w.urlParseError uploadURL with _ | err
    · rw [UploadImage_eq w c uploadURL imagePath imgData hfile hurl]
      simp [sentRequests, sentVia]
    · simp [Client.UploadImage, hfile, NewRequest, hurl, sentRequests, sentVia]

/-- What `RegisterUpload` returns once the transport has delivered a response. -/
theorem RegisterUpload_of_response (w : World) (c : Client)
    (registerUploadRequest : RegisterUploadRequest) (resp : Response)
    (hurl : w.urlParseError "https://api.linkedin.com/v2/assets?action=registerUpload" = none)
    (hdo : c.httpClient.Do w
        { Method := "POST", URL := "https://api.linkedin.com/v2/assets?action=registerUpload",
          Header := [("Authorization", ["Bearer " ++ c.AccessToken]),
                     ("X-Restli-Protocol-Version", ["2.0.0"]),
                     ("Content-Type", ["application/json"])],
          Body := Marshal registerUploadRequest } = .ok resp) :
    (c.RegisterUpload w registerUploadRequest).1 =
      if resp.StatusCode ≠ 200 then
        (RegisterUploadResponse.zero, some (GoError.new "failed to register upload"))
      else
        match resp.Body with
        | .error err => (RegisterUploadResponse.zero, some err)
        | .ok body =>
          match Unmarshal body with
          | .error err => (RegisterUploadResponse.zero, some err)
          | .ok registerUploadResponse => (registerUploadResponse, none) := by
  have h := doRequest_eq w c MethodPost "https://api.linkedin.com/v2/assets?action=registerUpload"
    registerUploadRequest hurl
  simp only [MethodPost] at h
  simp only [Client.RegisterUpload, assets_url, MethodPost, h, hdo, StatusOK]
  by_cases hs : resp.StatusCode = 200
  · simp only [hs, ne_eq, not_true_eq_false, if_false]
    rcases hb : resp.Body with err | body
    · rfl
    · simp only
      rcases hu : Unmarshal body with err | r <;> rfl
  · simp [hs]

/-- The effects of `RegisterUpload`: nothing when the URL does not parse, else
the one request, built by `doRequest` and handed to the stored client. -/
theorem RegisterUpload_effects (w : World) (c : Client)
    (registerUploadRequest : RegisterUploadRequest) :
    sentRequests (c.RegisterUpload w registerUploadRequest).2 =
      (if w.urlParseError "https://api.linkedin.com/v2/assets?action=registerUpload" = none then
        [{ Method := "POST", URL := "https://api.linkedin.com/v2/assets?action=registerUpload",
           Header := [("Authorization", ["Bearer " ++ c.AccessToken]),
                      ("X-Restli-Protocol-Version", ["2.0.0"]),
                      ("Content-Type", ["application/json"])],
           Body := Marshal registerUploadRequest }]
      else []) ∧
    sentVia (c.RegisterUpload w registerUploadRequest).2 =
      (if w.urlParseError "https://api.linkedin.com/v2/assets?action=registerUpload" = none then
        [c.httpClient]
      else []) := by
  cases hurl : w.urlParseError "https://api.linkedin.com/v2/assets?action=registerUpload" with
  | some err =>
    have h := doRequest_badURL w c MethodPost
      "https://api.linkedin.com/v2/assets?action=registerUpload" registerUploadRequest err hurl
    simp only [Client.RegisterUpload, assets_url, h]
    simp [sentRequests, sentVia]
  | none =>
    have h := doRequest_eq w c MethodPost
      "https://api.linkedin.com/v2/assets?action=registerUpload" registerUploadRequest hurl
    simp only [MethodPost] at h
    simp only [Client.RegisterUpload, assets_url, MethodPost, h]
    rcases hd : c.httpClient.Do w _ with err | resp
    · simp [sentRequests, sentVia]
    · by_cases hs : resp.StatusCode = StatusOK
      · rcases hb : resp.Body with err | body
        · simp [hs, hb, sentRequests, sentVia]
        · rcases hu : Unmarshal body with err | r <;> simp [hs, hb, hu, sentRequests, sentVia]
      · simp [hs, sentRequests, sentVia]

/-- The JSON document of the request `ShareArticle` builds for an empty title
and description. -/
theorem toJSON_bareArticle (u t url : String) :
    ToJSON.toJSON ({
        Author := u, LifecycleState := "PUBLISHED",
        SpecificContent :=
          { ShareContent :=
              { ShareCommentary := { Text := t },
                ShareMediaCategory := "ARTICLE",
                Media := [{ Status := "READY", Description := { Text := "" },
                            Media := "", OriginalURL := url, Title := { Text := "" } }] } },
        Visibility := { MemberNetworkVisibility := "PUBLIC" } } : ShareContentRequest) =
    .obj [("author", .str u), ("lifecycleState", .str "PUBLISHED"),
      ("specificContent", .obj [("com.linkedin.ugc.ShareContent",
          .obj [("shareCommentary", .obj [("text", .str t)]),
                ("shareMediaCategory", .str "ARTICLE"),
                ("media", .arr [.obj (
                    [("status", .str "READY"), ("description", .obj [("text", .str "")])]
                    ++ (if url = "" then [] else [("originalUrl", .str url)])
                    ++ [("title", .obj [("text", .str "")])])])])]),
      ("visibility", .obj [("com.linkedin.ugc.MemberNetworkVisibility", .str "PUBLIC")])] := by
  rfl

/-- The compact JSON text of that document. -/
theorem render_bareArticle (u t url : String) :
    render (.obj [("author", .str u), ("lifecycleState", .str "PUBLISHED"),
      ("specificContent", .obj [("com.linkedin.ugc.ShareContent",
          .obj [("shareCommentary", .obj [("text", .str t)]),
                ("shareMediaCategory", .str "ARTICLE"),
                ("media", .arr [.obj (
                    [("status", .str "READY"), ("description", .obj [("text", .str "")])]
                    ++ (if url = "" then [] else [("originalUrl", .str url)])
                    ++ [("title", .obj [("text", .str "")])])])])]),
      ("visibility", .obj [("com.linkedin.ugc.MemberNetworkVisibility", .str "PUBLIC")])]) =
    "\x7b\"author\":" ++ quote u ++ ",\"lifecycleState\":\"PUBLISHED\",\"specificContent\":\x7b\"com.linkedin.ugc.ShareContent\":\x7b\"shareCommentary\":\x7b\"text\":" ++ quote t ++ "\x7d,\"shareMediaCategory\":\"ARTICLE\",\"media\":[\x7b\"status\":\"READY\",\"description\":\x7b\"text\":\"\"\x7d" ++ (if url = "" then "" else ",\"originalUrl\":" ++ quote url) ++ ",\"title\":\x7b\"text\":\"\"\x7d\x7d]\x7d\x7d,\"visibility\":\x7b\"com.linkedin.ugc.MemberNetworkVisibility\":\"PUBLIC\"\x7d\x7d" := by
  by_cases h : url = ""
  · simp only [h, if_true, List.append_nil, List.cons_append, List.nil_append,
      render, renderMembers, renderItems]
    apply String.ext
    simp only [String.data_append]
    generalize (quote u).data = qu
    generalize (quote t).data = qt
    simp only [List.append_assoc]
    set_option maxRecDepth 100000 in rfl
  · simp only [h, if_false, List.append_nil, List.cons_append, List.nil_append,
      render, renderMembers, renderItems]
    apply String.ext
    simp only [String.data_append]
    generalize (quote u).data = qu
    generalize (quote t).data = qt
    generalize (quote url).data = qurl
    simp only [List.append_assoc]
    set_option maxRecDepth 100000 in rfl

/-- Storing an object whose members are all strings into a header map
assigns them in order. -/
theorem storeHeaders_strings (hs old : List (String × String)) :
    storeHeaders old (.obj (hs.map (fun kv => (kv.1, JSON.str kv.2)))) =
      .ok (hs.foldl (fun m kv => mapAssign m kv.1 kv.2) old) := by
  unfold storeHeaders
  induction hs generalizing old with
  | nil => rfl
  | cons kv rest ih =>
    simp only [List.map_cons, List.foldlM_cons, List.foldl_cons, storeString]
    exact ih _

/-- Storing a registration document of the documented shape fills every field. -/
theorem store_registration (A M U : String) (hs : List (String × String)) :
    storeRegisterUploadResponse RegisterUploadResponse.zero
      (.obj [("value", .obj [("asset", .str A), ("mediaArtifact", .str M),
        ("uploadMechanism", .obj [("com.linkedin.digitalmedia.uploading.MediaUploadHttpRequest",
          .obj [("headers", .obj (hs.map (fun kv => (kv.1, JSON.str kv.2)))),
                ("uploadUrl", .str U)])])])]) =
    .ok { Value := { UploadMechanism := { MediaUploadHttpRequest :=
                        { Headers := hs.foldl (fun m kv => mapAssign m kv.1 kv.2) [],
                          UploadURL := U } },
                     MediaArtifact := M, Asset := A } } := by
  have f1 : findField ["value"] "value" = some "value" := by decide
  have f2 : findField ["uploadMechanism", "mediaArtifact", "asset"] "asset" = some "asset" := by
    decide
  have f3 : findField ["uploadMechanism", "mediaArtifact", "asset"] "mediaArtifact"
      = some "mediaArtifact" := by decide
  have f4 : findField ["uploadMechanism", "mediaArtifact", "asset"] "uploadMechanism"
      = some "uploadMechanism" := by decide
  have f5 : findField ["com.linkedin.digitalmedia.uploading.MediaUploadHttpRequest"]
      "com.linkedin.digitalmedia.uploading.MediaUploadHttpRequest"
      = some "com.linkedin.digitalmedia.uploading.MediaUploadHttpRequest" := by decide
  have f6 : findField ["headers", "uploadUrl"] "headers" = some "headers" := by decide
  have f7 : findField ["headers", "uploadUrl"] "uploadUrl" = some "uploadUrl" := by decide
  simp only [storeRegisterUploadResponse, storeRegisterUploadValue, storeUploadMechanism,
    storeMediaUploadHttpRequest, List.foldlM_cons, List.foldlM_nil, f1, f2, f3, f4, f5, f6, f7,
    storeString, storeHeaders_strings, RegisterUploadResponse.zero]
  rfl

/-- The same for a registration document without a `headers` member. -/
theorem store_registration_bare (A M U : String) :
    storeRegisterUploadResponse RegisterUploadResponse.zero
      (.obj [("value", .obj [("asset", .str A), ("mediaArtifact", .str M),
        ("uploadMechanism", .obj [("com.linkedin.digitalmedia.uploading.MediaUploadHttpRequest",
          .obj [("uploadUrl", .str U)])])])]) =
    .ok { Value := { UploadMechanism := { MediaUploadHttpRequest :=
                        { Headers := [], UploadURL := U } },
                     MediaArtifact := M, Asset := A } } := by
  have f1 : findField ["value"] "value" = some "value" := by decide
  have f2 : findField ["uploadMechanism", "mediaArtifact", "asset"] "asset" = some "asset" := by
    decide
  have f3 : findField ["uploadMechanism", "mediaArtifact", "asset"] "mediaArtifact"
      = some "mediaArtifact" := by decide
  have f4 : findField ["uploadMechanism", "mediaArtifact", "asset"] "uploadMechanism"
      = some "uploadMechanism" := by decide
  have f5 : findField ["com.linkedin.digitalmedia.uploading.MediaUploadHttpRequest"]
      "com.linkedin.digitalmedia.uploading.MediaUploadHttpRequest"
      = some "com.linkedin.digitalmedia.uploading.MediaUploadHttpRequest" := by decide
  have f7 : findField ["headers", "uploadUrl"] "uploadUrl" = some "uploadUrl" := by decide
  simp only [storeRegisterUploadResponse, storeRegisterUploadValue, storeUploadMechanism,
    storeMediaUploadHttpRequest, List.foldlM_cons, List.foldlM_nil, f1, f2, f3, f4, f5, f7,
    storeString, RegisterUploadResponse.zero]
  rfl

/-! ## The fuel of the JSON parser is enough -/

/-- Skipping white space does not lengthen the input. -/
theorem skipWS_length (l : List Nat) : (skipWS l).length ≤ l.length := by
  induction l with
  | nil => simp [skipWS]
  | cons c cs ih =>
    unfold skipWS
    split
    · exact Nat.le_succ_of_le ih
    · exact Nat.le_refl _

/-- Four hexadecimal digits take four bytes. -/
theorem hex4_length (l rest : List Nat) (x : Nat) (h : hex4 l = some (x, rest)) :
    rest.length + 4 = l.length := by
  unfold hex4 at h
  split at h
  · split at h
    · simp only [Option.some.injEq, Prod.mk.injEq] at h
      rw [← h.2]
      simp
    · simp at h
  · simp at h

/-- A `\uXXXX` escape takes six bytes. -/
theorem getu4_length (l rest : List Nat) (x : Nat) (h : getu4 l = some (x, rest)) :
    rest.length + 6 = l.length := by
  unfold getu4 at h
  split at h
  · have := hex4_length _ _ _ h
    simp only [List.length_cons]
    omega
  · simp at h

/-- A string literal takes at least one byte, its closing quote. -/
theorem parseStringBody_length (fuel : Nat) :
    ∀ (l : List Nat) (acc : List Char) (s : String) (rest : List Nat),
      parseStringBody fuel l acc = some (s, rest) → rest.length < l.length := by
  induction fuel with
  | zero => intro l acc s rest h; simp [parseStringBody] at h
  | succ fuel ih =>
    intro l acc s rest h
    cases l with
    | nil => simp [parseStringBody] at h
    | cons c cs =>
      unfold parseStringBody at h
      split at h
      · simp only [Option.some.injEq, Prod.mk.injEq] at h
        rw [← h.2]
        simp
      · split at h
        · split at h
          · simp at h
          · rename_i e rest1
            split at h
            · split at h
              · simp at h
              · rename_i rr rest2 hhex
                have h4 := hex4_length _ _ _ hhex
                split at h
                · split at h
                  · rename_i rr1 rest3 hu
                    have h6 := getu4_length _ _ _ hu
                    split at h
                    · have := ih _ _ _ _ h
                      simp only [List.length_cons]
                      omega
                    · have := ih _ _ _ _ h
                      simp only [List.length_cons]
                      omega
                  · have := ih _ _ _ _ h
                    simp only [List.length_cons]
                    omega
                · have := ih _ _ _ _ h
                  simp only [List.length_cons]
                  omega
            · split at h
              · have := ih _ _ _ _ h
                simp only [List.length_cons]
                omega
              · simp at h
        · split at h
          · simp at h
          · have := ih _ _ _ _ h
            simp only [List.length_cons, List.length_drop] at this ⊢
            omega

/-- With fuel above the length of the input, one more unit of fuel does not
change what `parseStringBody` returns. -/
theorem parseStringBody_fuel (fuel : Nat) :
    ∀ (l : List Nat) (acc : List Char), l.length < fuel →
      parseStringBody (fuel + 1) l acc = parseStringBody fuel l acc := by
  induction fuel with
  | zero => intro l acc h; omega
  | succ fuel ih =>
    intro l acc hlen
    cases l with
    | nil => simp [parseStringBody]
    | cons c cs =>
      simp only [List.length_cons] at hlen
      conv_lhs => unfold parseStringBody
      conv_rhs => unfold parseStringBody
      simp only
      split
      · rfl
      · split
        · split
          · rfl
          · rename_i e rest1
            split
            · split
              · rfl
              · rename_i rr rest2 hhex
                have h4 := hex4_length _ _ _ hhex
                simp only [List.length_cons] at h4
                split
                · split
                  · rename_i rr1 rest3 hu
                    have h6 := getu4_length _ _ _ hu
                    split
                    · exact ih _ _ (by simp only [List.length_cons] at *; omega)
                    · exact ih _ _ (by simp only [List.length_cons] at *; omega)
                  · exact ih _ _ (by simp only [List.length_cons] at *; omega)
                · exact ih _ _ (by simp only [List.length_cons] at *; omega)
            · split
              · exact ih _ _ (by simp only [List.length_cons] at *; omega)
              · rfl
        · split
          · rfl
          · exact ih _ _ (by simp only [List.length_drop]; omega)

/-- Reading digits does not lengthen the input. -/
theorem takeDigits_length (l : List Nat) : (takeDigits l).2.length ≤ l.length := by
  induction l with
  | nil => simp [takeDigits]
  | cons c cs ih =>
    unfold takeDigits
    split
    · exact Nat.le_succ_of_le ih
    · exact Nat.le_refl _

/-- Reading an integer part does not lengthen the input. -/
theorem parseInt_length (l ds rest : List Nat) (h : parseInt l = some (ds, rest)) :
    rest.length ≤ l.length := by
  unfold parseInt at h
  split at h
  · simp at h
  · rename_i c cs
    split at h
    · simp only [Option.some.injEq, Prod.mk.injEq] at h
      rw [← h.2]
      simp
    · split at h
      · simp only [Option.some.injEq, Prod.mk.injEq] at h
        rw [← h.2]
        exact Nat.le_succ_of_le (takeDigits_length cs)
      · simp at h

/-- Reading a fraction does not lengthen the input. -/
theorem parseFrac_length (l ds rest : List Nat) (h : parseFrac l = some (ds, rest)) :
    rest.length ≤ l.length := by
  unfold parseFrac at h
  split at h
  · rename_i cs
    split at h
    · simp at h
    · rename_i ds1 rest1 _ hd
      simp only [Option.some.injEq, Prod.mk.injEq] at h
      rw [← h.2]
      have := takeDigits_length cs
      rw [hd] at this
      exact Nat.le_succ_of_le this
  · simp only [Option.some.injEq, Prod.mk.injEq] at h
    rw [← h.2]

/-- Reading an exponent does not lengthen the input. -/
theorem parseExp_length (l ds rest : List Nat) (h : parseExp l = some (ds, rest)) :
    rest.length ≤ l.length := by
  unfold parseExp at h
  split at h
  · simp only [Option.some.injEq, Prod.mk.injEq] at h
    rw [← h.2]
  · rename_i c cs
    split at h
    · split at h
      rename_i sign cs1 hs
      have h1 : cs1.length ≤ cs.length := by
        split at hs
        · rename_i s cs2
          split at hs
          · simp only [Prod.mk.injEq] at hs
            rw [← hs.2]
            simp
          · simp only [Prod.mk.injEq] at hs
            rw [← hs.2]
        · simp only [Prod.mk.injEq] at hs
          rw [← hs.2]
      split at h
      · simp at h
      · rename_i ds1 rest1 _ hd
        simp only [Option.some.injEq, Prod.mk.injEq] at h
        rw [← h.2]
        have := takeDigits_length cs1
        rw [hd] at this
        simp only [List.length_cons] at this ⊢
        omega
    · simp only [Option.some.injEq, Prod.mk.injEq] at h
      rw [← h.2]

/-- Reading a number does not lengthen the input. -/
theorem parseNumber_length (l rest : List Nat) (raw : String)
    (h : parseNumber l = some (raw, rest)) : rest.length ≤ l.length := by
  unfold parseNumber at h
  split at h
  rename_i sign cs hs
  have h0 : cs.length ≤ l.length := by
    split at hs
    · simp only [Prod.mk.injEq] at hs
      rw [← hs.2]
      simp
    · simp only [Prod.mk.injEq] at hs
      rw [← hs.2]
  split at h
  · simp at h
  · rename_i i cs1 hi
    have h1 := parseInt_length _ _ _ hi
    split at h
    · simp at h
    · rename_i f cs2 hf
      have h2 := parseFrac_length _ _ _ hf
      split at h
      · simp at h
      · rename_i e cs3 he
        have h3 := parseExp_length _ _ _ he
        simp only [Option.some.injEq, Prod.mk.injEq] at h
        rw [← h.2]
        omega

/-- Reading a fixed word does not lengthen the input. -/
theorem expect_length (word l rest : List Nat) (h : expect word l = some rest) :
    rest.length ≤ l.length := by
  induction word generalizing l with
  | nil =>
    simp only [expect, Option.some.injEq] at h
    rw [h]
  | cons w ws ih =>
    cases l with
    | nil => simp [expect] at h
    | cons c cs =>
      simp only [expect] at h
      split at h
      · exact Nat.le_succ_of_le (ih cs h)
      · simp at h

/-- What follows the first byte after white space is shorter than the input. -/
theorem skipWS_cons_length (l rest : List Nat) (c : Nat) (h : skipWS l = c :: rest) :
    rest.length + 1 ≤ l.length := by
  have := skipWS_length l
  rw [h] at this
  simpa using this

/-- The input left after a value, the members of an object or the elements
of an array is not longer than the input. -/
theorem parse_length (fuel : Nat) :
    (∀ input v rest, parseValue fuel input = some (v, rest) → rest.length ≤ input.length) ∧
    (∀ input acc v rest, parseMembers fuel input acc = some (v, rest) →
      rest.length ≤ input.length) ∧
    (∀ input acc v rest, parseItems fuel input acc = some (v, rest) →
      rest.length ≤ input.length) := by
  induction fuel with
  | zero =>
    refine ⟨?_, ?_, ?_⟩
    · intro input v rest h; simp [parseValue] at h
    · intro input acc v rest h; simp [parseMembers] at h
    · intro input acc v rest h; simp [parseItems] at h
  | succ fuel ih =>
    obtain ⟨ihV, ihM, ihI⟩ := ih
    refine ⟨?_, ?_, ?_⟩
    · intro input v rest h
      unfold parseValue at h
      split at h
      · simp at h
      · rename_i c rest0 hws
        have h0 := skipWS_cons_length _ _ _ hws
        split at h
        · split at h
          · rename_i rest1 hws1
            have h1 := skipWS_cons_length _ _ _ hws1
            simp only [Option.some.injEq, Prod.mk.injEq] at h
            rw [← h.2]
            omega
          · have := ihM _ _ _ _ h
            omega
        · split at h
          · split at h
            · rename_i rest1 hws1
              have h1 := skipWS_cons_length _ _ _ hws1
              simp only [Option.some.injEq, Prod.mk.injEq] at h
              rw [← h.2]
              omega
            · have := ihI _ _ _ _ h
              omega
          · split at h
            · split at h
              · rename_i s rest1 hs
                have h1 := parseStringBody_length _ _ _ _ _ hs
                simp only [Option.some.injEq, Prod.mk.injEq] at h
                rw [← h.2]
                omega
              · simp at h
            · split at h
              · simp only [Option.map_eq_some', Prod.mk.injEq] at h
                obtain ⟨r, hr, -, hrr⟩ := h
                have := expect_length _ _ _ hr
                rw [← hrr]
                omega
              · split at h
                · simp only [Option.map_eq_some', Prod.mk.injEq] at h
                  obtain ⟨r, hr, -, hrr⟩ := h
                  have := expect_length _ _ _ hr
                  rw [← hrr]
                  omega
                · split at h
                  · simp only [Option.map_eq_some', Prod.mk.injEq] at h
                    obtain ⟨r, hr, -, hrr⟩ := h
                    have := expect_length _ _ _ hr
                    rw [← hrr]
                    omega
                  · split at h
                    · rename_i raw rest1 hn
                      have h1 := parseNumber_length _ _ _ hn
                      simp only [List.length_cons] at h1
                      simp only [Option.some.injEq, Prod.mk.injEq] at h
                      rw [← h.2]
                      omega
                    · simp at h
    · intro input acc v rest h
      unfold parseMembers at h
      split at h
      · rename_i rest0 hws
        have h0 := skipWS_cons_length _ _ _ hws
        split at h
        · simp at h
        · rename_i key rest1 hs
          have h1 := parseStringBody_length _ _ _ _ _ hs
          split at h
          · rename_i rest2 hws2
            have h2 := skipWS_cons_length _ _ _ hws2
            split at h
            · simp at h
            · rename_i v1 rest3 hv
              have h3 := ihV _ _ _ hv
              split at h
              · rename_i rest4 hws4
                have h4 := skipWS_cons_length _ _ _ hws4
                have := ihM _ _ _ _ h
                omega
              · rename_i rest4 hws4
                have h4 := skipWS_cons_length _ _ _ hws4
                simp only [Option.some.injEq, Prod.mk.injEq] at h
                rw [← h.2]
                omega
              · simp at h
          · simp at h
      · simp at h
    · intro input acc v rest h
      unfold parseItems at h
      split at h
      · simp at h
      · rename_i v1 rest1 hv
        have h1 := ihV _ _ _ hv
        split at h
        · rename_i rest2 hws2
          have h2 := skipWS_cons_length _ _ _ hws2
          have := ihI _ _ _ _ h
          omega
        · rename_i rest2 hws2
          have h2 := skipWS_cons_length _ _ _ hws2
          simp only [Option.some.injEq, Prod.mk.injEq] at h
          rw [← h.2]
          omega
        · simp at h

/-- With fuel above twice the length of the input, one more unit of fuel does
not change what the three parsing functions return. -/
theorem parse_fuel_step (fuel : Nat) :
    (∀ input, 2 * input.length + 1 ≤ fuel → parseValue (fuel + 1) input = parseValue fuel input) ∧
    (∀ input acc, 2 * input.length + 2 ≤ fuel →
      parseMembers (fuel + 1) input acc = parseMembers fuel input acc) ∧
    (∀ input acc, 2 * input.length + 2 ≤ fuel →
      parseItems (fuel + 1) input acc = parseItems fuel input acc) := by
  induction fuel with
  | zero =>
    refine ⟨?_, ?_, ?_⟩
    · intro input h; omega
    · intro input acc h; omega
    · intro input acc h; omega
  | succ fuel ih =>
    obtain ⟨ihV, ihM, ihI⟩ := ih
    refine ⟨?_, ?_, ?_⟩
    · intro input hlen
      conv_lhs => unfold parseValue
      conv_rhs => unfold parseValue
      split
      · rfl
      · rename_i c rest0 hws
        have h0 := skipWS_cons_length _ _ _ hws
        split
        · split
          · rfl
          · exact ihM _ _ (by omega)
        · split
          · split
            · rfl
            · exact ihI _ _ (by omega)
          · rfl
    · intro input acc hlen
      conv_lhs => unfold parseMembers
      conv_rhs => unfold parseMembers
      split
      · rename_i rest0 hws
        have h0 := skipWS_cons_length _ _ _ hws
        split
        · rfl
        · rename_i key rest1 hs
          have h1 := parseStringBody_length _ _ _ _ _ hs
          split
          · rename_i rest2 hws2
            have h2 := skipWS_cons_length _ _ _ hws2
            rw [ihV rest2 (by omega)]
            split
            · rfl
            · rename_i v1 rest3 hv
              have h3 := (parse_length fuel).1 _ _ _ hv
              split
              · rename_i rest4 hws4
                have h4 := skipWS_cons_length _ _ _ hws4
                exact ihM _ _ (by omega)
              · rfl
              · rfl
          · rfl
      · rfl
    · intro input acc hlen
      conv_lhs => unfold parseItems
      conv_rhs => unfold parseItems
      rw [ihV input (by omega)]
      split
      · rfl
      · rename_i v1 rest1 hv
        have h1 := (parse_length fuel).1 _ _ _ hv
        split
        · rename_i rest2 hws2
          have h2 := skipWS_cons_length _ _ _ hws2
          exact ihI _ _ (by omega)
        · rfl
        · rfl

/-- More fuel than twice the length of the input plus one changes nothing:
the result of `parseValue` at that fuel does not depend on the fuel. -/
theorem parseValue_fuel (input : List Nat) (k : Nat) :
    parseValue (2 * input.length + 1 + k) input = parseValue (2 * input.length + 1) input := by
  induction k with
  | zero => rfl
  | succ k ih =>
    rw [← ih]
    exact (parse_fuel_step (2 * input.length + 1 + k)).1 input (by omega)

/-- More fuel than the length of the input plus one changes nothing in
`parseStringBody` either. -/
theorem parseStringBody_enough (l : List Nat) (acc : List Char) (k : Nat) :
    parseStringBody (l.length + 1 + k) l acc = parseStringBody (l.length + 1) l acc := by
  induction k with
  | zero => rfl
  | succ k ih =>
    rw [← ih]
    exact parseStringBody_fuel (l.length + 1 + k) l acc (by omega)

/-! ## The claims -/

/-- C1: for every share request and every response the transport delivers
with a readable body, `CreateShare` returns the value of the response header
`X-RestLi-Id`, read under its canonical key `X-Restli-Id`, and a nil error
when the status is 201, and the empty identifier with the error
"failed to create share" for every other status, whatever body and headers
the response has. -/
theorem CreateShare_by_status (w : World) (c : Client) (shareRequest : ShareContentRequest)
    (resp : Response) (body : Bytes)
    (hurl : w.urlParseError "https://api.linkedin.com/v2/ugcPosts" = none)
    (hdo : c.httpClient.Do w
        { Method := "POST", URL := "https://api.linkedin.com/v2/ugcPosts",
          Header := [("Authorization", ["Bearer " ++ c.AccessToken]),
                     ("X-Restli-Protocol-Version", ["2.0.0"]),
                     ("Content-Type", ["application/json"])],
          Body := Marshal shareRequest } = .ok resp)
    (hbody : resp.Body = .ok body) :
    (resp.StatusCode = 201 →
      (c.CreateShare w shareRequest).1 = (resp.Header.Get "X-RestLi-Id", none) ∧
      resp.Header.Get "X-RestLi-Id"
        = ((resp.Header.index "X-Restli-Id").bind List.head?).getD "") ∧
    (resp.StatusCode ≠ 201 →
      (c.CreateShare w shareRequest).1 = ("", some (GoError.new "failed to create share"))) := by
  rw [CreateShare_of_response w c shareRequest resp body hurl hdo hbody]
  constructor
  · intro h
    exact ⟨by simp [h], get_restliId resp.Header⟩
  · intro h
    simp [h]

/-- C1 at the repository's own test `TestCreateShare` (status 201, header
`X-Restli-Id: 1234`), and at a 400 response carrying the same header. -/
theorem CreateShare_by_status_witness :
    (testClient.CreateShare testWorld testShareRequest).1 = ("1234", none) ∧
    ((clientAnswering rejectedResponse).CreateShare testWorld testShareRequest).1
      = ("", some (GoError.new "failed to create share")) :=
  ⟨((CreateShare_by_status testWorld testClient testShareRequest mockTransport.response []
      rfl rfl rfl).1 (by decide)).1,
   (CreateShare_by_status testWorld (clientAnswering rejectedResponse) testShareRequest
      rejectedResponse [] rfl rfl rfl).2 (by decide)⟩

/-- C8: `CreateShare` does not check that the identifier header is present.
For a 201 response whose headers have no `X-Restli-Id` entry it returns the
empty string with a nil error; whenever it returns an error the identifier
is the empty string as well; and the same nil error with an empty identifier
is reached through `ShareText` and `ShareArticle`. -/
theorem CreateShare_created_without_id (w : World) (c : Client)
    (shareRequest : ShareContentRequest) (resp : Response) (body : Bytes)
    (hurl : w.urlParseError "https://api.linkedin.com/v2/ugcPosts" = none)
    (hdo : c.httpClient.Do w
        { Method := "POST", URL := "https://api.linkedin.com/v2/ugcPosts",
          Header := [("Authorization", ["Bearer " ++ c.AccessToken]),
                     ("X-Restli-Protocol-Version", ["2.0.0"]),
                     ("Content-Type", ["application/json"])],
          Body := Marshal shareRequest } = .ok resp)
    (hbody : resp.Body = .ok body)
    (hstatus : resp.StatusCode = 201)
    (hmissing : resp.Header.index "X-Restli-Id" = none) :
    (c.CreateShare w shareRequest).1 = ("", none) ∧
    (∀ (w1 : World) (c1 : Client) (r1 : ShareContentRequest),
      (c1.CreateShare w1 r1).1.2 ≠ none → (c1.CreateShare w1 r1).1.1 = "") ∧
    ((clientAnswering createdWithoutId).ShareText testWorld "urn:li:person:X" "hello").1
      = ("", none) ∧
    ((clientAnswering createdWithoutId).ShareArticle testWorld "urn:li:person:X" "hello"
      "https://example.com" "A title" "A description").1 = ("", none) := by
  refine ⟨?_, ?_, ?_, ?_⟩
  · rw [CreateShare_of_response w c shareRequest resp body hurl hdo hbody]
    simp [hstatus, get_restliId, hmissing]
  · intro w1 c1 r1
    unfold Client.CreateShare
    rcases hd : c1.doRequest w1 MethodPost (baseURL ++ ugcPostsEndpoint) r1 with ⟨res, fx⟩
    rcases res with err | resp1
    · simp [hd]
    · rcases hb : resp1.Body with err | body1
      · simp [hd, hb]
      · by_cases hs : resp1.StatusCode = StatusCreated <;> simp [hd, hb, hs]
  · rfl
  · rfl

/-- C8 at a 201 response that has only a `Content-Length` header. -/
theorem CreateShare_created_without_id_witness :
    ((clientAnswering createdWithoutId).CreateShare testWorld testShareRequest).1 = ("", none) :=
  (CreateShare_created_without_id testWorld (clientAnswering createdWithoutId) testShareRequest
    createdWithoutId [] rfl rfl rfl rfl rfl).1

/-- C3: `ShareText` returns exactly what `CreateShare` returns on the request
with the given author and text, lifecycle state PUBLISHED, media category
NONE, an empty media list and visibility PUBLIC; the JSON document of that
request has `shareMediaCategory` "NONE" and no `media` member, and its text
is the body of the one request `ShareText` sends (none is sent when the URL
does not parse). -/
theorem ShareText_request (w : World) (c : Client) (u t : String) :
    ∃ shareRequest : ShareContentRequest,
      shareRequest.Author = u ∧
      shareRequest.LifecycleState = "PUBLISHED" ∧
      shareRequest.SpecificContent.ShareContent.ShareCommentary.Text = t ∧
      shareRequest.SpecificContent.ShareContent.ShareMediaCategory = "NONE" ∧
      shareRequest.SpecificContent.ShareContent.Media = [] ∧
      shareRequest.Visibility.MemberNetworkVisibility = "PUBLIC" ∧
      c.ShareText w u t = c.CreateShare w shareRequest ∧
      (ToJSON.toJSON shareRequest).path
          ["specificContent", "com.linkedin.ugc.ShareContent", "shareMediaCategory"]
        = some (.str "NONE") ∧
      (ToJSON.toJSON shareRequest).path
          ["specificContent", "com.linkedin.ugc.ShareContent", "media"] = none ∧
      Marshal shareRequest = utf8 ("\x7b\"author\":" ++ quote u ++ ",\"lifecycleState\":\"PUBLISHED\",\"specificContent\":\x7b\"com.linkedin.ugc.ShareContent\":\x7b\"shareCommentary\":\x7b\"text\":" ++ quote t ++ "\x7d,\"shareMediaCategory\":\"NONE\"\x7d\x7d,\"visibility\":\x7b\"com.linkedin.ugc.MemberNetworkVisibility\":\"PUBLIC\"\x7d\x7d") ∧
      sentRequests (c.ShareText w u t).2 =
        (if w.urlParseError "https://api.linkedin.com/v2/ugcPosts" = none then
          [{ Method := "POST", URL := "https://api.linkedin.com/v2/ugcPosts",
             Header := [("Authorization", ["Bearer " ++ c.AccessToken]),
                        ("X-Restli-Protocol-Version", ["2.0.0"]),
                        ("Content-Type", ["application/json"])],
             Body := Marshal shareRequest }]
        else []) := by
  refine ⟨{ Author := u, LifecycleState := "PUBLISHED",
            SpecificContent :=
              { ShareContent :=
                  { ShareCommentary := { Text := t }, ShareMediaCategory := "NONE", Media := [] } },
            Visibility := { MemberNetworkVisibility := "PUBLIC" } },
    rfl, rfl, rfl, rfl, rfl, rfl, rfl, rfl, rfl, ?_, ?_⟩
  · unfold Marshal
    rw [← render_textShare u t]
    rfl
  · exact (CreateShare_effects w c _).1

/-- C4: `ShareArticle` returns exactly what `CreateShare` returns on a request
with media category ARTICLE and exactly one media item, the item having
status READY, the given url as original URL, the given title and description
and an empty media reference; author and commentary are the given ones, the
lifecycle state is PUBLISHED and the visibility PUBLIC.  The one request
`ShareArticle` sends has the encoding of that request as its body (none is
sent when the URL does not parse). -/
theorem ShareArticle_request (w : World) (c : Client) (u t url title description : String) :
    ∃ (shareRequest : ShareContentRequest) (item : ShareMedia),
      shareRequest.Author = u ∧
      shareRequest.LifecycleState = "PUBLISHED" ∧
      shareRequest.SpecificContent.ShareContent.ShareCommentary.Text = t ∧
      shareRequest.SpecificContent.ShareContent.ShareMediaCategory = "ARTICLE" ∧
      shareRequest.SpecificContent.ShareContent.Media = [item] ∧
      item.Status = "READY" ∧
      item.OriginalURL = url ∧
      item.Title.Text = title ∧
      item.Description.Text = description ∧
      item.Media = "" ∧
      shareRequest.Visibility.MemberNetworkVisibility = "PUBLIC" ∧
      c.ShareArticle w u t url title description = c.CreateShare w shareRequest ∧
      sentRequests (c.ShareArticle w u t url title description).2 =
        (if w.urlParseError "https://api.linkedin.com/v2/ugcPosts" = none then
          [{ Method := "POST", URL := "https://api.linkedin.com/v2/ugcPosts",
             Header := [("Authorization", ["Bearer " ++ c.AccessToken]),
                        ("X-Restli-Protocol-Version", ["2.0.0"]),
                        ("Content-Type", ["application/json"])],
             Body := Marshal shareRequest }]
        else []) := by
  refine ⟨{ Author := u, LifecycleState := "PUBLISHED",
            SpecificContent :=
              { ShareContent :=
                  { ShareCommentary := { Text := t },
                    ShareMediaCategory := "ARTICLE",
                    Media := [{ Status := "READY", Description := { Text := description },
                                Media := "", OriginalURL := url, Title := { Text := title } }] } },
            Visibility := { MemberNetworkVisibility := "PUBLIC" } },
    { Status := "READY", Description := { Text := description },
      Media := "", OriginalURL := url, Title := { Text := title } },
    rfl, rfl, rfl, rfl, rfl, rfl, rfl, rfl, rfl, rfl, rfl, rfl, ?_⟩
  exact (CreateShare_effects w c _).1

/-- C5, as stated, fails for `UploadImage`: the one request it sends for an
existing file carries `Content-Type` and `Authorization` and no
`X-Restli-Protocol-Version` header. -/
theorem UploadImage_omits_protocol_version :
    (sentRequests ((NewClient "token").UploadImage (imageWorld 200)
        "https://api.linkedin.com/mediaUpload/C5" "image.png").2).map
      (fun req => (req.Header.index "Content-Type", req.Header.index "Authorization",
        req.Header.index "X-Restli-Protocol-Version", req.Header.Get "X-Restli-Protocol-Version"))
    = [(some ["application/octet-stream"], some ["Bearer token"], none, "")] := by
  decide

/-- C5, amended: every request sent by `CreateShare` (and so by `ShareText`
and `ShareArticle`) and by `RegisterUpload` carries the three headers
`Content-Type: application/json`, `X-Restli-Protocol-Version: 2.0.0` and
`Authorization: Bearer <token>`; every request sent by `UploadImage` carries
`Content-Type: application/octet-stream` and `Authorization: Bearer <token>`
and no `X-Restli-Protocol-Version` header. -/
theorem outbound_headers (w : World) (c : Client) :
    (∀ (r : ShareContentRequest), ∀ req ∈ sentRequests (c.CreateShare w r).2,
      req.Header.index "Content-Type" = some ["application/json"] ∧
      req.Header.index "X-Restli-Protocol-Version" = some ["2.0.0"] ∧
      req.Header.index "Authorization" = some ["Bearer " ++ c.AccessToken]) ∧
    (∀ (u t : String), ∀ req ∈ sentRequests (c.ShareText w u t).2,
      req.Header.index "Content-Type" = some ["application/json"] ∧
      req.Header.index "X-Restli-Protocol-Version" = some ["2.0.0"] ∧
      req.Header.index "Authorization" = some ["Bearer " ++ c.AccessToken]) ∧
    (∀ (u t url title description : String),
      ∀ req ∈ sentRequests (c.ShareArticle w u t url title description).2,
      req.Header.index "Content-Type" = some ["application/json"] ∧
      req.Header.index "X-Restli-Protocol-Version" = some ["2.0.0"] ∧
      req.Header.index "Authorization" = some ["Bearer " ++ c.AccessToken]) ∧
    (∀ (r : RegisterUploadRequest), ∀ req ∈ sentRequests (c.RegisterUpload w r).2,
      req.Header.index "Content-Type" = some ["application/json"] ∧
      req.Header.index "X-Restli-Protocol-Version" = some ["2.0.0"] ∧
      req.Header.index "Authorization" = some ["Bearer " ++ c.AccessToken]) ∧
    (∀ (uploadURL imagePath : String),
      ∀ req ∈ sentRequests (c.UploadImage w uploadURL imagePath).2,
      req.Header.index "Content-Type" = some ["application/octet-stream"] ∧
      req.Header.index "Authorization" = some ["Bearer " ++ c.AccessToken] ∧
      req.Header.index "X-Restli-Protocol-Version" = none) := by
  have hshare : ∀ (r : ShareContentRequest), ∀ req ∈ sentRequests (c.CreateShare w r).2,
      req.Header.index "Content-Type" = some ["application/json"] ∧
      req.Header.index "X-Restli-Protocol-Version" = some ["2.0.0"] ∧
      req.Header.index "Authorization" = some ["Bearer " ++ c.AccessToken] := by
    intro r req hreq
    rw [(CreateShare_effects w c r).1] at hreq
    split at hreq
    · simp only [List.mem_singleton] at hreq
      subst hreq
      refine ⟨?_, ?_, ?_⟩ <;> simp [Header.index, List.lookup]
    · simp at hreq
  refine ⟨hshare, fun u t => hshare _, fun u t url title description => hshare _, ?_, ?_⟩
  · intro r req hreq
    rw [(RegisterUpload_effects w c r).1] at hreq
    split at hreq
    · simp only [List.mem_singleton] at hreq
      subst hreq
      refine ⟨?_, ?_, ?_⟩ <;> simp [Header.index, List.lookup]
    · simp at hreq
  · intro uploadURL imagePath req hreq
    rw [(UploadImage_effects w c uploadURL imagePath).1] at hreq
    split at hreq
    · simp at hreq
    · split at hreq
      · simp only [List.mem_singleton] at hreq
        subst hreq
        refine ⟨?_, ?_, ?_⟩ <;> simp [Header.index, List.lookup]
      · simp at hreq

/-- C5, amended, at the request of `TestCreateShare` and at an upload of
`image.png`. -/
theorem outbound_headers_witness :
    (Header.index [("Authorization", ["Bearer test-access-token"]),
        ("X-Restli-Protocol-Version", ["2.0.0"]), ("Content-Type", ["application/json"])]
      "X-Restli-Protocol-Version" = some ["2.0.0"]) ∧
    (Header.index [("Content-Type", ["application/octet-stream"]),
        ("Authorization", ["Bearer test-access-token"])]
      "X-Restli-Protocol-Version" = none) :=
  ⟨((outbound_headers testWorld testClient).1 testShareRequest
      { Method := "POST", URL := "https://api.linkedin.com/v2/ugcPosts",
        Header := [("Authorization", ["Bearer test-access-token"]),
                   ("X-Restli-Protocol-Version", ["2.0.0"]),
                   ("Content-Type", ["application/json"])],
        Body := Marshal testShareRequest } (by set_option maxRecDepth 100000 in decide)).2.1,
   ((outbound_headers (imageWorld 200) testClient).2.2.2.2 "https://upload.example" "image.png"
      { Method := "POST", URL := "https://upload.example",
        Header := [("Content-Type", ["application/octet-stream"]),
                   ("Authorization", ["Bearer test-access-token"])],
        Body := imageBytes } (by decide)).2.2⟩

/-- C6: when reading the file fails, `UploadImage` returns that read error and
sends no request.  When the file is read, every request it sends has exactly
the file's bytes as body, and once the default transport has delivered a
response the call returns nil for status 200 and the error
"failed to upload image", which is not a file error, for any other status. -/
theorem UploadImage_outcomes (w : World) (c : Client) (uploadURL imagePath : String) :
    (∀ err, w.ReadFile imagePath = .error err →
      c.UploadImage w uploadURL imagePath = (some err, [])) ∧
    (∀ imgData, w.ReadFile imagePath = .ok imgData →
      (∀ req ∈ sentRequests (c.UploadImage w uploadURL imagePath).2, req.Body = imgData) ∧
      (∀ resp, w.urlParseError uploadURL = none →
        w.DefaultTransport
          { Method := "POST", URL := uploadURL,
            Header := [("Content-Type", ["application/octet-stream"]),
                       ("Authorization", ["Bearer " ++ c.AccessToken])],
            Body := imgData } = .ok resp →
        (resp.StatusCode = 200 → (c.UploadImage w uploadURL imagePath).1 = none) ∧
        (resp.StatusCode ≠ 200 →
          (c.UploadImage w uploadURL imagePath).1 = some (GoError.new "failed to upload image") ∧
          ∀ detail, (c.UploadImage w uploadURL imagePath).1 ≠ some (GoError.file detail)))) := by
  constructor
  · intro err hfile
    simp [Client.UploadImage, hfile]
  · intro imgData hfile
    constructor
    · intro req hreq
      rw [(UploadImage_effects w c uploadURL imagePath).1, hfile] at hreq
      simp only at hreq
      split at hreq
      · simp only [List.mem_singleton] at hreq
        rw [hreq]
      · simp at hreq
    · intro resp hurl hdo
      rw [UploadImage_eq w c uploadURL imagePath imgData hfile hurl, hdo]
      constructor
      · intro hs
        simp [hs]
      · intro hs
        simp [hs]

/-- C6 at a missing file, at a 200 reply and at a 403 reply. -/
theorem UploadImage_outcomes_witness :
    (testClient.UploadImage (imageWorld 200) "https://upload.example" "missing.png"
      = (some (GoError.file "no such file"), [])) ∧
    ((testClient.UploadImage (imageWorld 200) "https://upload.example" "image.png").1 = none) ∧
    ((testClient.UploadImage (imageWorld 403) "https://upload.example" "image.png").1
      = some (GoError.new "failed to upload image")) :=
  ⟨(UploadImage_outcomes (imageWorld 200) testClient "https://upload.example" "missing.png").1
      (GoError.file "no such file") rfl,
   (((UploadImage_outcomes (imageWorld 200) testClient "https://upload.example" "image.png").2
      imageBytes rfl).2 { StatusCode := 200, Header := [], Body := .ok [] } rfl rfl).1 rfl,
   ((((UploadImage_outcomes (imageWorld 403) testClient "https://upload.example" "image.png").2
      imageBytes rfl).2 { StatusCode := 403, Header := [], Body := .ok [] } rfl rfl).2
        (by decide)).1⟩

/-- C7, as stated, fails for a request the caller constructs: `CreateShare`
accepts a request with media category NONE and one media item, sends it with
the item in the body, and returns the identifier with a nil error. -/
theorem CreateShare_sends_media_under_NONE :
    mixedShareRequest.SpecificContent.ShareContent.ShareMediaCategory = "NONE" ∧
    mixedShareRequest.SpecificContent.ShareContent.Media.length = 1 ∧
    (testClient.CreateShare testWorld mixedShareRequest).1 = ("1234", none) ∧
    (sentRequests (testClient.CreateShare testWorld mixedShareRequest).2).map (fun req => req.Body)
      = [utf8 "\x7b\"author\":\"urn:li:person:X\",\"lifecycleState\":\"PUBLISHED\",\"specificContent\":\x7b\"com.linkedin.ugc.ShareContent\":\x7b\"shareCommentary\":\x7b\"text\":\"hello\"\x7d,\"shareMediaCategory\":\"NONE\",\"media\":[\x7b\"status\":\"READY\",\"description\":\x7b\"text\":\"\"\x7d,\"media\":\"urn:li:digitalmediaAsset:123\",\"title\":\x7b\"text\":\"\"\x7d\x7d]\x7d\x7d,\"visibility\":\x7b\"com.linkedin.ugc.MemberNetworkVisibility\":\"PUBLIC\"\x7d\x7d"] := by
  refine ⟨rfl, rfl, rfl, ?_⟩
  set_option maxRecDepth 100000 in decide

/-- C7, amended: the request `ShareText` sends through `CreateShare` has media
category NONE and an empty media list, and the request `ShareArticle` sends
has media category ARTICLE, so for both the media list is empty when the
category is NONE.  `CreateShare` itself checks nothing: the body of every
request it sends is the encoding of the request it was given, and that
encoding has a `media` member listing every item whenever the media list is
not empty, whatever the category. -/
theorem media_empty_under_NONE (w : World) (c : Client) :
    (∀ (u t : String), ∃ r : ShareContentRequest,
      c.ShareText w u t = c.CreateShare w r ∧
      r.SpecificContent.ShareContent.ShareMediaCategory = "NONE" ∧
      r.SpecificContent.ShareContent.Media = []) ∧
    (∀ (u t url title description : String), ∃ r : ShareContentRequest,
      c.ShareArticle w u t url title description = c.CreateShare w r ∧
      r.SpecificContent.ShareContent.ShareMediaCategory = "ARTICLE" ∧
      (r.SpecificContent.ShareContent.ShareMediaCategory = "NONE" →
        r.SpecificContent.ShareContent.Media = [])) ∧
    (∀ (r : ShareContentRequest),
      (∀ req ∈ sentRequests (c.CreateShare w r).2, req.Body = Marshal r) ∧
      (r.SpecificContent.ShareContent.Media ≠ [] →
        (ToJSON.toJSON r).path ["specificContent", "com.linkedin.ugc.ShareContent", "media"]
          = some (.arr (r.SpecificContent.ShareContent.Media.map ToJSON.toJSON)))) := by
  refine ⟨fun u t => ⟨_, rfl, rfl, rfl⟩, fun u t url title description => ⟨_, rfl, rfl, ?_⟩, ?_⟩
  · intro h
    have h1 : ("ARTICLE" : String) = "NONE" := h
    exact absurd h1 (by decide)
  · intro r
    constructor
    · intro req hreq
      rw [(CreateShare_effects w c r).1] at hreq
      split at hreq
      · simp only [List.mem_singleton] at hreq
        rw [hreq]
      · simp at hreq
    · intro hne
      have hlen : r.SpecificContent.ShareContent.Media.length ≠ 0 := by
        intro h0
        exact hne (List.length_eq_zero.mp h0)
      simp [JSON.path, JSON.member, ToJSON.toJSON, List.lookup, hlen]

/-- C7, amended, at the caller-built request with category NONE and one media
item: its body is the encoding of the request as given, media included. -/
theorem media_empty_under_NONE_witness :
    (ToJSON.toJSON mixedShareRequest).path
        ["specificContent", "com.linkedin.ugc.ShareContent", "media"]
      = some (.arr (mixedShareRequest.SpecificContent.ShareContent.Media.map ToJSON.toJSON)) :=
  ((media_empty_under_NONE testWorld testClient).2.2 mixedShareRequest).2 (by decide)

/-- C9: `UploadImage` never uses the stored HTTP client.  Two clients with the
same access token return the same result and cause the same effects, the
request included, whatever their stored clients are, and the request goes
through a fresh client with a nil transport; `CreateShare` and
`RegisterUpload` hand their request to the stored client. -/
theorem UploadImage_ignores_stored_client (w : World) (c1 c2 : Client)
    (uploadURL imagePath : String) (htoken : c1.AccessToken = c2.AccessToken) :
    c1.UploadImage w uploadURL imagePath = c2.UploadImage w uploadURL imagePath ∧
    sentRequests (c1.UploadImage w uploadURL imagePath).2
      = sentRequests (c2.UploadImage w uploadURL imagePath).2 ∧
    (∀ via ∈ sentVia (c1.UploadImage w uploadURL imagePath).2, via = { Transport := none }) ∧
    (∀ (r : ShareContentRequest), ∀ via ∈ sentVia (c1.CreateShare w r).2, via = c1.httpClient) ∧
    (∀ (r : RegisterUploadRequest), ∀ via ∈ sentVia (c1.RegisterUpload w r).2,
      via = c1.httpClient) := by
  have heq : c1.UploadImage w uploadURL imagePath = c2.UploadImage w uploadURL imagePath := by
    unfold Client.UploadImage
    rw [htoken]
  refine ⟨heq, by rw [heq], ?_, ?_, ?_⟩
  · intro via hvia
    rw [(UploadImage_effects w c1 uploadURL imagePath).2] at hvia
    split at hvia
    · simp at hvia
    · split at hvia
      · simpa using hvia
      · simp at hvia
  · intro r via hvia
    rw [(CreateShare_effects w c1 r).2] at hvia
    split at hvia
    · simpa using hvia
    · simp at hvia
  · intro r via hvia
    rw [(RegisterUpload_effects w c1 r).2] at hvia
    split at hvia
    · simpa using hvia
    · simp at hvia

/-- C9 at two clients with the token of the test, one holding the mock
transport and one built by `NewClient`: `UploadImage` does the same for both,
while `CreateShare` gives the mock's identifier for the first and the default
transport's error for the second. -/
theorem UploadImage_ignores_stored_client_witness :
    (testClient.UploadImage (imageWorld 200) "https://upload.example" "image.png"
      = (NewClient "test-access-token").UploadImage (imageWorld 200) "https://upload.example"
          "image.png") ∧
    (testClient.CreateShare testWorld testShareRequest).1 = ("1234", none) ∧
    ((NewClient "test-access-token").CreateShare testWorld testShareRequest).1
      = ("", some (GoError.transport "no network")) :=
  ⟨(UploadImage_ignores_stored_client (imageWorld 200) testClient (NewClient "test-access-token")
      "https://upload.example" "image.png" rfl).1, rfl, rfl⟩

/-- C10: the JSON object of a media item always has the members `status`,
`description` and `title`, the last two as objects with a `text` member even
when the text is empty, and has the members `media` and `originalUrl` exactly
when the corresponding string is not empty.  The body of the request
`ShareArticle` sends for an empty title and description contains the members
`"description":{"text":""}` and `"title":{"text":""}` in its one media item
and no `media` member in it. -/
theorem ShareMedia_json_shape (m : ShareMedia) (w : World) (c : Client) (u t url : String) :
    (ToJSON.toJSON m).member "status" = some (.str m.Status) ∧
    (ToJSON.toJSON m).member "description" = some (.obj [("text", .str m.Description.Text)]) ∧
    (ToJSON.toJSON m).member "title" = some (.obj [("text", .str m.Title.Text)]) ∧
    (ToJSON.toJSON m).member "media" = (if m.Media = "" then none else some (.str m.Media)) ∧
    (ToJSON.toJSON m).member "originalUrl"
      = (if m.OriginalURL = "" then none else some (.str m.OriginalURL)) ∧
    (ToJSON.toJSON (bareArticleItem url)).member "media" = none ∧
    (sentRequests (c.ShareArticle w u t url "" "").2).map (fun req => req.Body) =
      (if w.urlParseError "https://api.linkedin.com/v2/ugcPosts" = none then
        [utf8 ("\x7b\"author\":" ++ quote u ++ ",\"lifecycleState\":\"PUBLISHED\",\"specificContent\":\x7b\"com.linkedin.ugc.ShareContent\":\x7b\"shareCommentary\":\x7b\"text\":" ++ quote t ++ "\x7d,\"shareMediaCategory\":\"ARTICLE\",\"media\":[\x7b\"status\":\"READY\",\"description\":\x7b\"text\":\"\"\x7d" ++ (if url = "" then "" else ",\"originalUrl\":" ++ quote url) ++ ",\"title\":\x7b\"text\":\"\"\x7d\x7d]\x7d\x7d,\"visibility\":\x7b\"com.linkedin.ugc.MemberNetworkVisibility\":\"PUBLIC\"\x7d\x7d")]
      else []) := by
  refine ⟨?_, ?_, ?_, ?_, ?_, ?_, ?_⟩
  · simp [ToJSON.toJSON, JSON.member, List.lookup]
  · by_cases h1 : m.Media = "" <;> by_cases h2 : m.OriginalURL = "" <;>
      simp [ToJSON.toJSON, JSON.member, List.lookup, omitEmptyString, h1, h2]
  · by_cases h1 : m.Media = "" <;> by_cases h2 : m.OriginalURL = "" <;>
      simp [ToJSON.toJSON, JSON.member, List.lookup, omitEmptyString, h1, h2]
  · by_cases h1 : m.Media = "" <;> by_cases h2 : m.OriginalURL = "" <;>
      simp [ToJSON.toJSON, JSON.member, List.lookup, omitEmptyString, h1, h2]
  · by_cases h1 : m.Media = "" <;> by_cases h2 : m.OriginalURL = "" <;>
      simp [ToJSON.toJSON, JSON.member, List.lookup, omitEmptyString, h1, h2]
  · by_cases h2 : url = "" <;>
      simp [bareArticleItem, ToJSON.toJSON, JSON.member, List.lookup, omitEmptyString, h2]
  · unfold Client.ShareArticle
    rw [(CreateShare_effects w c _).1]
    split
    · simp only [List.map_cons, List.map_nil]
      unfold Marshal
      rw [toJSON_bareArticle, render_bareArticle]
    · rfl

/-- C10 at the article `https://example.com` shared with an empty title and
description: the whole body that is sent. -/
theorem ShareMedia_json_shape_witness :
    (sentRequests (testClient.ShareArticle testWorld "urn:li:person:X" "hello"
        "https://example.com" "" "").2).map (fun req => req.Body)
      = [utf8 "\x7b\"author\":\"urn:li:person:X\",\"lifecycleState\":\"PUBLISHED\",\"specificContent\":\x7b\"com.linkedin.ugc.ShareContent\":\x7b\"shareCommentary\":\x7b\"text\":\"hello\"\x7d,\"shareMediaCategory\":\"ARTICLE\",\"media\":[\x7b\"status\":\"READY\",\"description\":\x7b\"text\":\"\"\x7d,\"originalUrl\":\"https://example.com\",\"title\":\x7b\"text\":\"\"\x7d\x7d]\x7d\x7d,\"visibility\":\x7b\"com.linkedin.ugc.MemberNetworkVisibility\":\"PUBLIC\"\x7d\x7d"] :=
  by
  set_option maxRecDepth 100000 in
  exact (ShareMedia_json_shape (bareArticleItem "https://example.com") testWorld testClient
    "urn:li:person:X" "hello" "https://example.com").2.2.2.2.2.2

/-- C2: once the transport has delivered a response, `RegisterUpload` returns
the error "failed to register upload" and the zero-value response object for
every status other than 200, whatever the body.  For status 200 and a body
that is the JSON document
`{"value":{"asset":A,"mediaArtifact":M,"uploadMechanism":{"com.linkedin.digitalmedia.uploading.MediaUploadHttpRequest":{"headers":{...},"uploadUrl":U}}}}`
(with or without the `headers` member) it returns a nil error and the object
with Asset = A, MediaArtifact = M and UploadURL = U; for status 200 and a
body that is not JSON, or that `json.Unmarshal` rejects for another reason,
it returns that error and the zero-value response object. -/
theorem RegisterUpload_outcomes (w : World) (c : Client)
    (registerUploadRequest : RegisterUploadRequest) (resp : Response)
    (hurl : w.urlParseError "https://api.linkedin.com/v2/assets?action=registerUpload" = none)
    (hdo : c.httpClient.Do w
        { Method := "POST", URL := "https://api.linkedin.com/v2/assets?action=registerUpload",
          Header := [("Authorization", ["Bearer " ++ c.AccessToken]),
                     ("X-Restli-Protocol-Version", ["2.0.0"]),
                     ("Content-Type", ["application/json"])],
          Body := Marshal registerUploadRequest } = .ok resp) :
    (resp.StatusCode ≠ 200 →
      (c.RegisterUpload w registerUploadRequest).1 =
        (RegisterUploadResponse.zero, some (GoError.new "failed to register upload"))) ∧
    (resp.StatusCode = 200 → ∀ body, resp.Body = .ok body →
      (∀ (A M U : String) (hs : List (String × String)),
        parseJSON body = .ok
          (.obj [("value", .obj [("asset", .str A), ("mediaArtifact", .str M),
            ("uploadMechanism",
              .obj [("com.linkedin.digitalmedia.uploading.MediaUploadHttpRequest",
                .obj [("headers", .obj (hs.map (fun kv => (kv.1, JSON.str kv.2)))),
                      ("uploadUrl", .str U)])])])]) →
        (c.RegisterUpload w registerUploadRequest).1 =
          ({ Value := { UploadMechanism := { MediaUploadHttpRequest :=
                          { Headers := hs.foldl (fun m kv => mapAssign m kv.1 kv.2) [],
                            UploadURL := U } },
                        MediaArtifact := M, Asset := A } }, none)) ∧
      (∀ (A M U : String),
        parseJSON body = .ok
          (.obj [("value", .obj [("asset", .str A), ("mediaArtifact", .str M),
            ("uploadMechanism",
              .obj [("com.linkedin.digitalmedia.uploading.MediaUploadHttpRequest",
                .obj [("uploadUrl", .str U)])])])]) →
        (c.RegisterUpload w registerUploadRequest).1 =
          ({ Value := { UploadMechanism := { MediaUploadHttpRequest :=
                          { Headers := [], UploadURL := U } },
                        MediaArtifact := M, Asset := A } }, none)) ∧
      (∀ err, parseJSON body = .error err →
        (c.RegisterUpload w registerUploadRequest).1 = (RegisterUploadResponse.zero, some err)) ∧
      (∀ err, Unmarshal body = .error err →
        (c.RegisterUpload w registerUploadRequest).1 = (RegisterUploadResponse.zero, some err))) := by
  rw [RegisterUpload_of_response w c registerUploadRequest resp hurl hdo]
  constructor
  · intro hs
    simp [hs]
  · intro hs body hbody
    simp only [hs, ne_eq, not_true_eq_false, if_false, hbody]
    refine ⟨?_, ?_, ?_, ?_⟩
    · intro A M U hdrs hparse
      simp only [Unmarshal, hparse, store_registration]
    · intro A M U hparse
      simp only [Unmarshal, hparse, store_registration_bare]
    · intro err hparse
      simp only [Unmarshal, hparse]
    · intro err hun
      simp only [hun]

/-- C2 at the documented registration body: with status 200 the asset, the
media artifact, the headers and the upload URL come back; with status 500
and the same body, and with status 200 and a truncated body, the zero value
and an error come back. -/
theorem RegisterUpload_outcomes_witness :
    ((clientAnswering (plainResponse 200 registrationBody)).RegisterUpload testWorld
        testRegisterRequest).1 =
      ({ Value := { UploadMechanism := { MediaUploadHttpRequest :=
                      { Headers := [("media-type-family", "STILLIMAGE")],
                        UploadURL := "https://api.linkedin.com/mediaUpload/123?ca=vector_feedshare" } },
                    MediaArtifact := "urn:li:digitalmediaMediaArtifact:(urn:li:digitalmediaAsset:123,urn:li:digitalmediaMediaArtifactClass:uploaded-image)",
                    Asset := "urn:li:digitalmediaAsset:123" } }, none) ∧
    ((clientAnswering (plainResponse 500 registrationBody)).RegisterUpload testWorld
        testRegisterRequest).1 =
      (RegisterUploadResponse.zero, some (GoError.new "failed to register upload")) ∧
    ((clientAnswering (plainResponse 200 (utf8 "\x7b\"value\":"))).RegisterUpload testWorld
        testRegisterRequest).1 =
      (RegisterUploadResponse.zero, some (GoError.malformedJSON "invalid JSON input")) :=
  ⟨(((RegisterUpload_outcomes testWorld (clientAnswering (plainResponse 200 registrationBody))
        testRegisterRequest (plainResponse 200 registrationBody) rfl rfl).2 rfl
        registrationBody rfl).1
      "urn:li:digitalmediaAsset:123"
      "urn:li:digitalmediaMediaArtifact:(urn:li:digitalmediaAsset:123,urn:li:digitalmediaMediaArtifactClass:uploaded-image)"
      "https://api.linkedin.com/mediaUpload/123?ca=vector_feedshare"
      [("media-type-family", "STILLIMAGE")]
      (by set_option maxRecDepth 1000000 in rfl)),
   (RegisterUpload_outcomes testWorld (clientAnswering (plainResponse 500 registrationBody))
        testRegisterRequest (plainResponse 500 registrationBody) rfl rfl).1 (by decide),
   (((RegisterUpload_outcomes testWorld (clientAnswering (plainResponse 200 (utf8 "\x7b\"value\":")))
        testRegisterRequest (plainResponse 200 (utf8 "\x7b\"value\":")) rfl rfl).2 rfl
        (utf8 "\x7b\"value\":") rfl).2.2.1
      (GoError.malformedJSON "invalid JSON input") rfl)⟩

end linkedinapi
